import Mathlib

/-!
# MyLibraryActivity: file browser of the e-reader

A shallow embedding of `src/activities/home/MyLibraryActivity.cpp` and the
properties of its natural file sort, its paginated grid loader and its
single-slot frame cache.

Conventions of the embedding.

* `std::string` is `String`, standing for its UTF-8 bytes; a `const char*`
  obtained with `c_str()` is the list of characters in front of the first NUL.
  `char` is unsigned on the target (ESP32), so characters are compared through
  `Char.toNat`: code points order as their UTF-8 bytes do, and `isdigit` and
  `tolower` act on ASCII only.
* `int` values are mathematical integers (signed overflow is undefined in C++
  and lies outside the model); the conversions between `int` and the 32-bit
  `size_t` of the target are explicit: `static_cast_int` and `toSizeT`.
* Undefined behaviour (a vector subscript out of range, a division by zero, a
  negative `reserve`) is the result `none`.  The one exception is the header
  title, read through a dangling pointer: it is an unspecified string
  (`Env.danglingTitle`), so that a render off the root is still a step.
-/

namespace MyLibrary

/-! ## Machine integers -/

/-- Number of values of the 32-bit `size_t` of the target. -/
def SIZE_MOD : Nat := 4294967296

/-- Conversion of an `int` to `size_t`: reduction modulo `2^32`. -/
def toSizeT (x : Int) : Nat := (x % (SIZE_MOD : Int)).toNat

/-- The conversion `static_cast<int>(n)` of a `size_t`: the low 32 bits read as
a two's complement number. -/
def static_cast_int (n : Nat) : Int :=
  if n % SIZE_MOD < 2147483648 then ((n % SIZE_MOD : Nat) : Int)
  else ((n % SIZE_MOD : Nat) : Int) - (SIZE_MOD : Int)

/-! ## Constants of the anonymous namespace -/

def GRID_COLS : Int := 3
def GRID_THUMB_HEIGHT : Int := 180
def GRID_CELL_GAP : Int := 10

/-! ## Natural file sort (`sortFileList`) -/

/-- The C function `isdigit` on an unsigned `char`. -/
def isdigit (c : Char) : Bool := decide (48 ≤ c.toNat ∧ c.toNat ≤ 57)

/-- The C function `tolower` in the "C" locale. -/
def tolower (c : Char) : Char :=
  if 65 ≤ c.toNat ∧ c.toNat ≤ 90 then Char.ofNat (c.toNat + 32) else c

/-- The loop `for (i < len1) if (s1[i] != s2[i]) return s1[i] < s2[i];` over two
digit runs of the same length: the verdict at the first differing position, or
`none` when the loop falls through. -/
def firstDiff : List Char → List Char → Option Bool
  | a :: r1, b :: r2 =>
      if a ≠ b then some (decide (a.toNat < b.toNat)) else firstDiff r1 r2
  | _, _ => none

/-- The `while (*s1 && *s2)` loop of the comparator and the `return` after it,
on the two C strings.  Every iteration consumes at least one character of `s1`;
`fuel` bounds the number of iterations and `none` means it ran out. -/
def natLessAux : Nat → List Char → List Char → Option Bool
  | 0, _, _ => none
  | fuel + 1, c1 :: r1, c2 :: r2 =>
      if isdigit c1 && isdigit c2 then
        let s1 := (c1 :: r1).dropWhile (fun c => c == '0')
        let s2 := (c2 :: r2).dropWhile (fun c => c == '0')
        let len1 := (s1.takeWhile isdigit).length
        let len2 := (s2.takeWhile isdigit).length
        if len1 ≠ len2 then some (decide (len1 < len2))
        else
          match firstDiff (s1.take len1) (s2.take len1) with
          | some r => some r
          | none => natLessAux fuel (s1.drop len1) (s2.drop len2)
      else
        let c1' := tolower c1
        let c2' := tolower c2
        if c1' ≠ c2' then some (decide (c1'.toNat < c2'.toNat))
        else natLessAux fuel r1 r2
  | _ + 1, s1, s2 => some (s1.isEmpty && !s2.isEmpty)

/-- The natural comparison of two C strings; `natLess_iff` shows that the fuel
given here is always enough. -/
def natLess (s1 s2 : List Char) : Bool :=
  (natLessAux (s1.length + 1) s1 s2).getD false

/-- The characters seen through `c_str()`: everything before the first NUL. -/
def c_str (s : String) : List Char := s.data.takeWhile (fun c => c != Char.ofNat 0)

/-- The test `str.back() == '/'` (undefined on the empty string in C++, false
here). -/
def isDirName (s : String) : Bool := s.data.getLast? == some '/'

/-- The comparator lambda handed to `std::sort` in `sortFileList`. -/
def less (str1 str2 : String) : Bool :=
  let isDir1 := isDirName str1
  let isDir2 := isDirName str2
  if isDir1 != isDir2 then isDir1
  else natLess (c_str str1) (c_str str2)

/-- Insertion of one name in front of the first name it is `less` than. -/
def insertByLess (x : String) : List String → List String
  | [] => [x]
  | y :: ys => if less x y then x :: y :: ys else y :: insertByLess x ys

/-- The function `sortFileList`: `std::sort` with the comparator `less`.  The
library algorithm is not part of the repository; it is embedded as an insertion
sort, which like every comparison sort returns a permutation ordered by the
comparator (names the comparator cannot tell apart may come out in another
order from the library). -/
def sortFileList (strs : List String) : List String :=
  strs.foldr insertByLess []

/-! ## Reference order of the natural sort -/

/-- Value of a decimal digit character. -/
def digitVal (c : Char) : Nat := c.toNat - 48

/-- Value of a run of decimal digits read after the value `v`. -/
def numVal (v : Nat) (ds : List Char) : Nat :=
  ds.foldl (fun acc c => 10 * acc + digitVal c) v

/-- A token of a name: `(48, v)` for a maximal digit run of value `v`, and
`(code, 0)` for any other character, `code` being its lower-case code.  Tokens
are ordered lexicographically, which places a number where its first digit
stands among the characters. -/
abbrev Tok : Type := ℕ ×ₗ ℕ

/-- The token sequence of a C string; the first argument is the value of the
digit run being read, if any. -/
def tokens : Option Nat → List Char → List Tok
  | none, [] => []
  | some v, [] => [toLex (48, v)]
  | none, c :: r =>
      if isdigit c then tokens (some (digitVal c)) r
      else toLex ((tolower c).toNat, 0) :: tokens none r
  | some v, c :: r =>
      if isdigit c then tokens (some (10 * v + digitVal c)) r
      else toLex (48, v) :: toLex ((tolower c).toNat, 0) :: tokens none r

/-- The sort key of a name: a leading token `0` for a directory and `1` for a
file, then the tokens of the name. -/
def sortKey (s : String) : List Tok :=
  toLex ((if isDirName s then 0 else 1), 0) :: tokens none (c_str s)

/-- The string `s` with every ASCII upper-case letter replaced by its lower-case
letter. -/
def asciiLower (s : String) : String := String.mk (s.data.map tolower)

/-! ## Collaborators and state -/

/-- One record of the grid (`BookGridEntry` of the header). -/
structure BookGridEntry where
  title : String
  coverBmpPath : String
  loaded : Bool
deriving DecidableEq

/-- The record handed to the cover-grid widget (`RecentBooksStore.h` is not
among the sources; the four strings are the ones `renderGrid` fills in). -/
structure RecentBook where
  path : String
  title : String
  author : String
  coverBmpPath : String
deriving DecidableEq

/-- A call to the renderer or to a widget. -/
inductive DrawOp where
  | clearScreen
  | drawHeader (title : String)
  | drawBookCoverGrid (items : List RecentBook) (selected : Int) (skipBackground : Bool)
  | drawText (text : String)
  | drawList (items : List String) (selected : Nat)
  | drawButtonHints (l1 l2 l3 l4 : String)
  | displayBuffer
deriving DecidableEq

/-- Contents of a frame buffer: what was drawn into it since it was cleared. -/
abbrev Frame : Type := List DrawOp

/-- One child reported by the storage enumeration. -/
structure DirChild where
  name : String
  isDirectory : Bool
deriving DecidableEq

/-- What the activity reads from its collaborators: theme metrics, screen
geometry, `StringUtils::checkFileExtension` and the book readers.  None of them
is part of the sources, so they are parameters.  The last field is what
`drawHeader` reads through a pointer into a string that no longer exists (see
`folderName`): the source does not determine it, so it is a parameter too. -/
structure Env where
  topPadding : Int
  headerHeight : Int
  verticalSpacing : Int
  buttonHintsHeight : Int
  screenHeight : Int
  lineHeight : Nat
  checkFileExtension : String → String → Bool
  epubTitle : String → String
  epubThumbBmpPath : String → String
  xtcLoad : String → Bool
  xtcTitle : String → String
  xtcThumbBmpPath : String → String
  danglingTitle : String → String

/-- The fields of `MyLibraryActivity` that the browser logic uses, and the state
of the renderer it draws on: the frame buffer (`none` when `getFrameBuffer()`
is null) and the calls made so far. -/
structure MyLibraryActivity where
  selectorIndex : Nat
  updateRequired : Bool
  basepath : String
  files : List String
  isGridMode : Bool
  gridEntries : List BookGridEntry
  currentPage : Int
  pageCoversLoaded : Bool
  pageLoadIndex : Nat
  coverBuffer : Option Frame
  coverBufferStored : Bool
  cachedPage : Int
  frameBuffer : Option Frame
  calls : List DrawOp

/-! ## Pagination -/

/-- The method `isLeafDirectory`. -/
def isLeafDirectory (s : MyLibraryActivity) : Bool :=
  if s.files.any isDirName then false else !s.files.isEmpty

/-- The method `getItemsPerPage`.  The line height of a font is a natural
number, so the cell height is positive and the division is defined. -/
def getItemsPerPage (env : Env) : Int :=
  let contentTop := env.topPadding + env.headerHeight + env.verticalSpacing
  let contentHeight :=
    env.screenHeight - contentTop - env.buttonHintsHeight - env.verticalSpacing * 2
  let titleHeight := (env.lineHeight : Int) + 5
  let cellHeight := GRID_THUMB_HEIGHT + titleHeight + GRID_CELL_GAP
  let rowsPerPage := Int.tdiv contentHeight cellHeight
  rowsPerPage * GRID_COLS

/-- The method `getPageForIndex`. -/
def getPageForIndex (env : Env) (index : Int) : Int :=
  let ipp := getItemsPerPage env
  if ipp > 0 then Int.tdiv index ipp else 0

/-- The method `startPageLoad`. -/
def startPageLoad (env : Env) (page : Int) (s : MyLibraryActivity) : MyLibraryActivity :=
  { s with
    currentPage := page
    pageCoversLoaded := false
    pageLoadIndex := toSizeT (page * getItemsPerPage env) }

/-! ## Incremental cover loader -/

/-- The loop `while (static_cast<int>(pageLoadIndex) < pageEnd &&
gridEntries[pageLoadIndex].loaded) pageLoadIndex++;`: the cursor where it stops.
The result is `none` for a subscript out of range or when the fuel runs out. -/
def skipLoaded (entries : List BookGridEntry) (pageEnd : Int) : Nat → Nat → Option Nat
  | 0, _ => none
  | fuel + 1, idx =>
      if static_cast_int idx < pageEnd then
        match entries[idx]? with
        | none => none
        | some e =>
            if e.loaded then skipLoaded entries pageEnd fuel ((idx + 1) % SIZE_MOD)
            else some idx
      else some idx

/-- The branch on the file extension in `loadNextPageCover`: what the readers
write into the entry. -/
def loadEntry (env : Env) (fullPath filename : String) (entry : BookGridEntry) :
    BookGridEntry :=
  if env.checkFileExtension filename ".epub" then
    { entry with title := env.epubTitle fullPath, coverBmpPath := env.epubThumbBmpPath fullPath }
  else if env.checkFileExtension filename ".xtch" || env.checkFileExtension filename ".xtc" then
    if env.xtcLoad fullPath then
      { entry with title := env.xtcTitle fullPath, coverBmpPath := env.xtcThumbBmpPath fullPath }
    else entry
  else { entry with title := filename }

/-- The method `loadNextPageCover`. -/
def loadNextPageCover (env : Env) (s : MyLibraryActivity) : Option MyLibraryActivity :=
  let ipp := getItemsPerPage env
  let pageEnd := min ((s.currentPage + 1) * ipp) (static_cast_int s.gridEntries.length)
  match skipLoaded s.gridEntries pageEnd (s.gridEntries.length + 1) s.pageLoadIndex with
  | none => none
  | some idx =>
      if static_cast_int idx ≥ pageEnd then
        some { s with pageLoadIndex := idx, pageCoversLoaded := true }
      else
        match s.gridEntries[idx]?, s.files[idx]?, s.basepath.data.getLast? with
        | some entry, some filename, some last =>
            let fullPath := (if last ≠ '/' then s.basepath ++ "/" else s.basepath) ++ filename
            let loadedEntry := { loadEntry env fullPath filename entry with loaded := true }
            some { s with
              gridEntries := s.gridEntries.set idx loadedEntry
              pageLoadIndex := (idx + 1) % SIZE_MOD
              updateRequired := true }
        | _, _, _ => none

/-- The method `loadNextPageCover` called `n` times in a row. -/
def loadNextPageCoverN (env : Env) : Nat → MyLibraryActivity → Option MyLibraryActivity
  | 0, s => some s
  | n + 1, s => (loadNextPageCoverN env n s).bind (loadNextPageCover env)

/-! ## Frame cache -/

/-- The method `freeCoverBuffer`. -/
def freeCoverBuffer (s : MyLibraryActivity) : MyLibraryActivity :=
  { s with coverBuffer := none, coverBufferStored := false, cachedPage := -1 }

/-- The method `storeCoverBuffer`; `mallocOk` is the outcome of the allocation. -/
def storeCoverBuffer (mallocOk : Bool) (s : MyLibraryActivity) : Bool × MyLibraryActivity :=
  match s.frameBuffer with
  | none => (false, s)
  | some frame =>
      let freed := freeCoverBuffer s
      if mallocOk then (true, { freed with coverBuffer := some frame }) else (false, freed)

/-- The method `restoreCoverBuffer`. -/
def restoreCoverBuffer (s : MyLibraryActivity) : Bool × MyLibraryActivity :=
  match s.coverBuffer, s.frameBuffer with
  | some snapshot, some _ => (true, { s with frameBuffer := some snapshot })
  | _, _ => (false, s)

/-! ## Directory loader -/

/-- The body of the enumeration loop of `loadFiles`: the entry kept for a child,
if any. -/
def keepChild (env : Env) (child : DirChild) : Option String :=
  if child.name.data.head? == some '.' || child.name == "System Volume Information" then none
  else if child.isDirectory then some (child.name ++ "/")
  else if env.checkFileExtension child.name ".epub" || env.checkFileExtension child.name ".xtch"
      || env.checkFileExtension child.name ".xtc" || env.checkFileExtension child.name ".txt"
      || env.checkFileExtension child.name ".md" then some child.name
  else none

/-- The method `loadFiles`.  The argument `listing` is the outcome of the storage
enumeration of `basepath`: `none` when the path cannot be opened or is not a
directory, else its children in the order of `openNextFile`. -/
def loadFiles (env : Env) (listing : Option (List DirChild)) (s : MyLibraryActivity) :
    MyLibraryActivity :=
  let cleared := { s with files := [] }
  match listing with
  | none => cleared
  | some children =>
      let sorted := { cleared with files := sortFileList (children.filterMap (keepChild env)) }
      let reset := { freeCoverBuffer sorted with
        gridEntries := []
        currentPage := -1
        pageCoversLoaded := false
        pageLoadIndex := 0 }
      let grid := isLeafDirectory reset
      { reset with
        isGridMode := grid
        gridEntries :=
          if grid then List.replicate reset.files.length
            { title := "", coverBmpPath := "", loaded := false }
          else [] }

/-! ## Grid navigation of `loop` -/

/-- The four Up/Down events of grid mode that `loop` registers handlers for. -/
inductive GridMove where
  | upRelease
  | downRelease
  | upContinuous
  | downContinuous
deriving DecidableEq

/-- The index computed by the handler of a grid Up/Down event, in `int`
arithmetic (`%` truncates towards zero). -/
def gridTarget (m : GridMove) (selectorIndex : Nat) (listSize ipp : Int) : Int :=
  match m with
  | .upRelease => Int.tmod (static_cast_int selectorIndex + listSize - GRID_COLS) listSize
  | .downRelease => Int.tmod (static_cast_int selectorIndex + GRID_COLS) listSize
  | .upContinuous => Int.tmod (static_cast_int selectorIndex + listSize - ipp) listSize
  | .downContinuous => Int.tmod (static_cast_int selectorIndex + ipp) listSize

/-- The tail of `loop` (from the computation of `listSize`) when the button
navigator fires the handler of the grid Up/Down event `m`. -/
def loopGridUpDown (env : Env) (m : GridMove) (s : MyLibraryActivity) : MyLibraryActivity :=
  let listSize := static_cast_int s.files.length
  if listSize = 0 then s
  else if s.isGridMode then
    let ipp := getItemsPerPage env
    { s with
      selectorIndex := toSizeT (gridTarget m s.selectorIndex listSize ipp)
      updateRequired := true }
  else s

/-! ## Rendering of the grid -/

/-- A drawing call: it is recorded and lands in the frame buffer. -/
def draw (op : DrawOp) (s : MyLibraryActivity) : MyLibraryActivity :=
  { s with frameBuffer := s.frameBuffer.map (fun f => f ++ [op]), calls := s.calls ++ [op] }

/-- The call `renderer.clearScreen()`. -/
def clearScreen (s : MyLibraryActivity) : MyLibraryActivity :=
  { s with frameBuffer := s.frameBuffer.map (fun _ => []), calls := s.calls ++ [DrawOp.clearScreen] }

/-- The call `renderer.displayBuffer()`. -/
def displayBuffer (s : MyLibraryActivity) : MyLibraryActivity :=
  { s with calls := s.calls ++ [DrawOp.displayBuffer] }

/-- The header title handed to `drawHeader`: `"SD card"` at the root.  Off the
root the source takes `c_str()` of the temporary string
`basepath.substr(basepath.rfind('/') + 1)` (the last segment, or the whole path
when it has no `'/'`); the temporary is destroyed at the end of that statement,
before `drawHeader` reads the pointer.  Reading it is undefined behaviour: the
characters shown are whatever `danglingTitle` yields for the segment, on which
no property in this file depends. -/
def folderName (env : Env) (basepath : String) : String :=
  if basepath = "/" then "SD card"
  else env.danglingTitle
    (String.mk (basepath.data.reverse.takeWhile (fun c => c != '/')).reverse)

/-- The element pushed for index `i` by the loop that builds the page slice;
`none` for a subscript out of range. -/
def pageItem (gridEntries : List BookGridEntry) (files : List String) (i : Int) :
    Option RecentBook :=
  if i < 0 then none
  else
    match gridEntries[i.toNat]? with
    | none => none
    | some entry =>
        if entry.loaded then
          some { path := "", title := entry.title, author := "", coverBmpPath := entry.coverBmpPath }
        else
          match files[i.toNat]? with
          | none => none
          | some file => some { path := "", title := file, author := "", coverBmpPath := "" }

/-- The loop `for (i = pageStart; i < pageStart + pageItemCount; i++)` of
`renderGrid`, from index `i` for `n` more elements. -/
def pageSlice (gridEntries : List BookGridEntry) (files : List String) :
    Int → Nat → Option (List RecentBook)
  | _, 0 => some []
  | i, n + 1 =>
      match pageItem gridEntries files i, pageSlice gridEntries files (i + 1) n with
      | some item, some rest => some (item :: rest)
      | _, _ => none

/-- The end of `renderGrid`, from the page indicator on.  The page count divides
by `ipp`; the result is `none` when `ipp = 0`. -/
def renderGridFooter (env : Env) (viewPage : Int) (s : MyLibraryActivity) :
    Option MyLibraryActivity :=
  let ipp := getItemsPerPage env
  if ipp = 0 then none
  else
    let totalPages := Int.tdiv (static_cast_int s.gridEntries.length + ipp - 1) ipp
    let paged :=
      if totalPages > 1 then
        draw (DrawOp.drawText (toString (viewPage + 1) ++ " / " ++ toString totalPages)) s
      else s
    some (displayBuffer (draw (DrawOp.drawButtonHints "« Home" "Open" "Up" "Down") paged))

/-- The middle of `renderGrid`, after the attempt to restore the cached frame:
header, page slice, cover grid and the snapshot of a fully loaded page.  The
result is `none` for a negative `reserve` or a subscript out of range. -/
def renderGridContent (env : Env) (mallocOk : Bool) (viewPage pageStart pageItemCount : Int)
    (localSelected : Int) (bufferRestored : Bool) (s : MyLibraryActivity) :
    Option MyLibraryActivity :=
  let headed :=
    if !bufferRestored then draw (DrawOp.drawHeader (folderName env s.basepath)) (clearScreen s)
    else s
  if pageItemCount < 0 then none
  else
    match pageSlice headed.gridEntries headed.files pageStart pageItemCount.toNat with
    | none => none
    | some pageItems =>
        let drawn := draw (DrawOp.drawBookCoverGrid pageItems localSelected bufferRestored) headed
        let cached :=
          if !bufferRestored && drawn.pageCoversLoaded then
            let stored := storeCoverBuffer mallocOk drawn
            { stored.2 with coverBufferStored := stored.1, cachedPage := viewPage }
          else drawn
        renderGridFooter env viewPage cached

/-- The method `renderGrid`; `mallocOk` is the outcome of the allocation in
`storeCoverBuffer`, should it be reached.  The result is `none` when the call
has undefined behaviour: a negative `reserve`, a subscript out of range or the
division by `ipp = 0` in the page count. -/
def renderGrid (env : Env) (mallocOk : Bool) (s : MyLibraryActivity) : Option MyLibraryActivity :=
  let ipp := getItemsPerPage env
  let viewPage := getPageForIndex env (static_cast_int s.selectorIndex)
  let started := if viewPage ≠ s.currentPage then startPageLoad env viewPage s else s
  let pageStart := viewPage * ipp
  let pageItemCount := min ipp (static_cast_int started.gridEntries.length - pageStart)
  let localSelected := static_cast_int started.selectorIndex - pageStart
  let restored :=
    if started.coverBufferStored && started.cachedPage == viewPage then restoreCoverBuffer started
    else (false, started)
  renderGridContent env mallocOk viewPage pageStart pageItemCount localSelected restored.1 restored.2

/-! ## Rendering of the list and the display task -/

/-- The method `renderList`. -/
def renderList (env : Env) (s : MyLibraryActivity) : MyLibraryActivity :=
  let headed := draw (DrawOp.drawHeader (folderName env s.basepath)) (clearScreen s)
  let listed :=
    if s.files.isEmpty then draw (DrawOp.drawText "No books found") headed
    else draw (DrawOp.drawList s.files s.selectorIndex) headed
  let hinted :=
    draw (DrawOp.drawButtonHints (if s.basepath = "/" then "« Home" else "« Back") "Open" "Up" "Down")
      listed
  displayBuffer hinted

/-- The method `render`. -/
def render (env : Env) (mallocOk : Bool) (s : MyLibraryActivity) : Option MyLibraryActivity :=
  if s.isGridMode then renderGrid env mallocOk s else some (renderList env s)

/-- A call made by one iteration of `displayTaskLoop`. -/
inductive TaskCall where
  | render
  | loadNextPageCover
deriving DecidableEq

/-- One iteration of the loop of `displayTaskLoop`, run without interference
from the input path: the state it leaves and the calls it made, in order. -/
def displayTaskTick (env : Env) (mallocOk : Bool) (s : MyLibraryActivity) :
    Option (MyLibraryActivity × List TaskCall) :=
  let rendered : Option (MyLibraryActivity × List TaskCall) :=
    if s.updateRequired then
      (render env mallocOk { s with updateRequired := false }).map
        (fun t => (t, [TaskCall.render]))
    else some (s, [])
  rendered.bind (fun r =>
    if r.1.isGridMode && !r.1.pageCoversLoaded then
      (loadNextPageCover env r.1).map (fun u => (u, r.2 ++ [TaskCall.loadNextPageCover]))
    else some r)

/-! ## Confirm and Back in `loop` -/

def GO_HOME_MS : Nat := 1000

/-- The call `str.find_last_of(c)`: the index of the last `c`, `none` for
`npos`. -/
def find_last_of : List Char → Char → Option Nat
  | [], _ => none
  | x :: xs, c =>
      match find_last_of xs c with
      | some i => some (i + 1)
      | none => if x = c then some 0 else none

/-- The loop of `findEntry` from index `i` on. -/
def findEntryFrom (name : String) : List String → Nat → Nat
  | [], _ => 0
  | f :: fs, i => if f = name then i else findEntryFrom name fs (i + 1)

/-- The method `findEntry`. -/
def findEntry (s : MyLibraryActivity) (name : String) : Nat :=
  findEntryFrom name s.files 0

/-- A call of one of the two callbacks of the activity. -/
inductive Callback where
  | goHome
  | selectBook (path : String)
deriving DecidableEq

/-- The block of `loop` run when Confirm was released; `listing` is the outcome
of the enumeration, should `loadFiles` be reached.  The result is `none` for
`back()` on an empty string or a subscript out of range. -/
def loopConfirm (env : Env) (listing : Option (List DirChild)) (s : MyLibraryActivity) :
    Option (MyLibraryActivity × List Callback) :=
  if s.files.isEmpty then some (s, [])
  else
    match s.basepath.data.getLast? with
    | none => none
    | some last =>
        let slashed := if last ≠ '/' then { s with basepath := s.basepath ++ "/" } else s
        match slashed.files[slashed.selectorIndex]? with
        | none => none
        | some entry =>
            match entry.data.getLast? with
            | none => none
            | some c =>
                if c = '/' then
                  let entered := { slashed with
                    basepath := slashed.basepath ++ String.mk (entry.data.take (entry.length - 1)) }
                  some ({ loadFiles env listing entered with
                    selectorIndex := 0, updateRequired := true }, [])
                else some (slashed, [Callback.selectBook (slashed.basepath ++ entry)])

/-- The block of `loop` run when Back was released after `heldTime` ms;
`listing` is the outcome of the enumeration of the parent directory.  The
result is `none` when the path has no `'/'`: `replace` is then called at `npos`
and throws. -/
def loopBack (env : Env) (heldTime : Nat) (listing : Option (List DirChild))
    (s : MyLibraryActivity) : Option (MyLibraryActivity × List Callback) :=
  if heldTime < GO_HOME_MS then
    if s.basepath ≠ "/" then
      let oldPath := s.basepath
      match find_last_of s.basepath.data '/' with
      | none => none
      | some cut =>
          let stripped := String.mk (s.basepath.data.take cut)
          let parent := if stripped.data.isEmpty then "/" else stripped
          let loaded := loadFiles env listing { s with basepath := parent }
          let dirName :=
            (match find_last_of oldPath.data '/' with
              | some pos => String.mk (oldPath.data.drop (pos + 1))
              | none => oldPath) ++ "/"
          some ({ loaded with selectorIndex := findEntry loaded dirName, updateRequired := true }, [])
    else some (s, [Callback.goHome])
  else some (s, [])

/-! ## Reachable states of the grid -/

/-- A step of the browser on its grid state: a `renderGrid` after the selection
moved to any index of the file list, a `loadNextPageCover`, or a `loadFiles` of
any path with any outcome.  A call with undefined behaviour is no step.  The
file list of a listing fits the 32-bit address space. -/
inductive GridStep (env : Env) : MyLibraryActivity → MyLibraryActivity → Prop where
  | render (s t : MyLibraryActivity) (i : Nat) (mallocOk : Bool) :
      i < s.files.length → renderGrid env mallocOk { s with selectorIndex := i } = some t →
      GridStep env s t
  | load (s t : MyLibraryActivity) :
      loadNextPageCover env s = some t → GridStep env s t
  | reload (s : MyLibraryActivity) (path : String) (listing : Option (List DirChild)) :
      (∀ children, listing = some children →
        (children.filterMap (keepChild env)).length < 2147483648) →
      GridStep env s (loadFiles env listing { s with basepath := path })

/-- The states reachable from a successful `loadFiles` that chose grid mode. -/
inductive Reachable (env : Env) : MyLibraryActivity → Prop where
  | start (s : MyLibraryActivity) (children : List DirChild) :
      (children.filterMap (keepChild env)).length < 2147483648 →
      (loadFiles env (some children) s).isGridMode = true →
      Reachable env (loadFiles env (some children) s)
  | step (s t : MyLibraryActivity) : Reachable env s → GridStep env s t → Reachable env t

/-- Every grid entry whose index lies in page `p` is loaded. -/
def PageLoaded (env : Env) (entries : List BookGridEntry) (p : Int) : Prop :=
  ∀ (i : Nat) (e : BookGridEntry), p * getItemsPerPage env ≤ (i : Int) →
    (i : Int) < min ((p + 1) * getItemsPerPage env) (entries.length : Int) →
    entries[i]? = some e → e.loaded = true

/-- The invariant of the grid state behind the frame cache: the sizes fit an
`int`; the page of a valid cached frame is loaded; a page marked loaded is
loaded; and the entries of the current page in front of the cursor are
loaded. -/
def GridInvariant (env : Env) (s : MyLibraryActivity) : Prop :=
  s.gridEntries.length < 2147483648 ∧ s.files.length < 2147483648 ∧
  s.pageLoadIndex < 2147483648 ∧
  (s.coverBufferStored = true → PageLoaded env s.gridEntries s.cachedPage) ∧
  (s.pageCoversLoaded = true → PageLoaded env s.gridEntries s.currentPage) ∧
  ∀ (i : Nat) (e : BookGridEntry), s.currentPage * getItemsPerPage env ≤ (i : Int) →
    i < s.pageLoadIndex → s.gridEntries[i]? = some e → e.loaded = true

/-! ## Concrete collaborators and states -/

/-- A screen on which one row of three covers fits (`getItemsPerPage = 3`); the
extension test is a plain suffix test, and the header happens to read the
segment intact. -/
def smallScreen : Env where
  topPadding := 5
  headerHeight := 45
  verticalSpacing := 10
  buttonHintsHeight := 40
  screenHeight := 420
  lineHeight := 20
  checkFileExtension := fun name ext => ext.data.isSuffixOf name.data
  epubTitle := fun path => path
  epubThumbBmpPath := fun path => path ++ ".bmp"
  xtcLoad := fun _ => true
  xtcTitle := fun path => path
  xtcThumbBmpPath := fun path => path ++ ".bmp"
  danglingTitle := fun segment => segment

/-- A grid entry that has not been loaded. -/
def unloadedEntry : BookGridEntry := { title := "", coverBmpPath := "", loaded := false }

/-- A leaf directory with two books, shown as a grid, selection on the first. -/
def twoBooks : MyLibraryActivity where
  selectorIndex := 0
  updateRequired := false
  basepath := "/books"
  files := ["a.epub", "b.epub"]
  isGridMode := true
  gridEntries := [unloadedEntry, unloadedEntry]
  currentPage := 0
  pageCoversLoaded := false
  pageLoadIndex := 0
  coverBuffer := none
  coverBufferStored := false
  cachedPage := -1
  frameBuffer := some []
  calls := []

/-- A leaf directory with four books whose first page (entries 0 to 2) is loaded
and cached, and whose selection has just moved to the second page. -/
def cachedFirstPage : MyLibraryActivity where
  selectorIndex := 3
  updateRequired := true
  basepath := "/books"
  files := ["a.epub", "b.epub", "c.epub", "d.epub"]
  isGridMode := true
  gridEntries :=
    [{ title := "A", coverBmpPath := "a.bmp", loaded := true },
     { title := "B", coverBmpPath := "b.bmp", loaded := true },
     { title := "C", coverBmpPath := "c.bmp", loaded := true },
     unloadedEntry]
  currentPage := 0
  pageCoversLoaded := true
  pageLoadIndex := 3
  coverBuffer := some [DrawOp.drawHeader "books"]
  coverBufferStored := true
  cachedPage := 0
  frameBuffer := some [DrawOp.drawHeader "books"]
  calls := []

/-- A screen too low for a row of covers: `getItemsPerPage = 0`. -/
def tinyScreen : Env where
  topPadding := 5
  headerHeight := 45
  verticalSpacing := 10
  buttonHintsHeight := 40
  screenHeight := 200
  lineHeight := 20
  checkFileExtension := fun name ext => ext.data.isSuffixOf name.data
  epubTitle := fun path => path
  epubThumbBmpPath := fun path => path ++ ".bmp"
  xtcLoad := fun _ => true
  xtcTitle := fun path => path
  xtcThumbBmpPath := fun path => path ++ ".bmp"
  danglingTitle := fun segment => segment

/-- The state `cachedFirstPage` with the selection back on the first page. -/
def cachedFirstPageRevisited : MyLibraryActivity := { cachedFirstPage with selectorIndex := 1 }

/-- The activity as constructed, before `onEnter`. -/
def freshActivity : MyLibraryActivity where
  selectorIndex := 0
  updateRequired := false
  basepath := "/"
  files := []
  isGridMode := false
  gridEntries := []
  currentPage := -1
  pageCoversLoaded := false
  pageLoadIndex := 0
  coverBuffer := none
  coverBufferStored := false
  cachedPage := -1
  frameBuffer := some []
  calls := []

/-- The root holds one book: `loadFiles` chooses grid mode. -/
def oneBookOpened : MyLibraryActivity :=
  loadFiles smallScreen (some [{ name := "a.epub", isDirectory := false }]) freshActivity

/-- The first render of that grid starts the load of page 0. -/
def oneBookRendered : MyLibraryActivity :=
  (renderGrid smallScreen true { oneBookOpened with selectorIndex := 0 }).getD oneBookOpened

/-- The first loader call loads the book. -/
def oneBookLoaded : MyLibraryActivity :=
  (loadNextPageCover smallScreen oneBookRendered).getD oneBookRendered

/-- The second loader call marks the page loaded. -/
def oneBookMarked : MyLibraryActivity :=
  (loadNextPageCover smallScreen oneBookLoaded).getD oneBookLoaded

/-- The next render takes the snapshot of page 0. -/
def oneBookCached : MyLibraryActivity :=
  (renderGrid smallScreen true { oneBookMarked with selectorIndex := 0 }).getD oneBookMarked

/-- The activity after `onEnter` at the root, which holds the directory
`books`: a list with the one entry `books/`. -/
def shelfListed : MyLibraryActivity :=
  { loadFiles smallScreen (some [{ name := "books", isDirectory := true }]) freshActivity with
    selectorIndex := 0, updateRequired := true }

/-- Confirm on `books/`, which holds one book: the grid of `/books`. -/
def shelfEntered : MyLibraryActivity :=
  ((loopConfirm smallScreen (some [{ name := "a.epub", isDirectory := false }]) shelfListed).map
    Prod.fst).getD shelfListed

/-- The display task renders the grid, which starts the load of page 0. -/
def shelfRendered : MyLibraryActivity :=
  (render smallScreen true { shelfEntered with updateRequired := false }).getD shelfEntered

/-- Back, short press, while the root cannot be opened. -/
def shelfLeft : MyLibraryActivity :=
  ((loopBack smallScreen 0 none shelfRendered).map Prod.fst).getD shelfRendered

/-! # Theorems -/

/-! ## Machine integers -/

theorem static_cast_int_of_lt (n : Nat) (h : n < 2147483648) : static_cast_int n = (n : Int) := by
  unfold static_cast_int SIZE_MOD
  have e : n % 4294967296 = n := Nat.mod_eq_of_lt (by omega)
  rw [e, if_pos h]

theorem succ_mod_size (n : Nat) (h : n < 2147483648) : (n + 1) % SIZE_MOD = n + 1 := by
  unfold SIZE_MOD
  exact Nat.mod_eq_of_lt (by omega)

theorem toSizeT_of_nat (n : Nat) (h : n < 2147483648) : toSizeT (n : Int) = n := by
  unfold toSizeT SIZE_MOD
  have : ((n : Int) % ((4294967296 : Nat) : Int)) = (n : Int) :=
    Int.emod_eq_of_lt (by omega) (by omega)
  rw [this]
  simp

/-! ## Grid navigation -/

/-- A remainder of a non-negative dividend by the list size is an index of the
list also after the conversion to `size_t`. -/
theorem toSizeT_tmod_lt (x n : Int) (hx : 0 ≤ x) (hn : 0 < n) (hsz : n < 2147483648) :
    (toSizeT (Int.tmod x n) : Int) < n := by
  have h1 : Int.tmod x n = x % n := Int.tmod_eq_emod hx (le_of_lt hn)
  have h2 : 0 ≤ x % n := Int.emod_nonneg x (by omega)
  have h3 : x % n < n := Int.emod_lt_of_pos x hn
  unfold toSizeT SIZE_MOD
  rw [h1, Int.emod_eq_of_lt h2 (by omega), Int.toNat_of_nonneg h2]
  exact h3

/-- A released Down keeps the selection inside a non-empty list: its dividend
`index + GRID_COLS` is not negative. -/
theorem grid_down_release_in_range (env : Env) (s : MyLibraryActivity)
    (hgrid : s.isGridMode = true) (hne : 0 < s.files.length)
    (hsz : s.files.length < 2147483648) (hsel : s.selectorIndex < s.files.length) :
    (loopGridUpDown env GridMove.downRelease s).selectorIndex < s.files.length := by
  have hcl : static_cast_int s.files.length = (s.files.length : Int) :=
    static_cast_int_of_lt _ hsz
  have hcs : static_cast_int s.selectorIndex = (s.selectorIndex : Int) :=
    static_cast_int_of_lt _ (by omega)
  have h := toSizeT_tmod_lt ((s.selectorIndex : Int) + GRID_COLS) (s.files.length : Int)
    (by unfold GRID_COLS; omega) (by omega) (by omega)
  unfold loopGridUpDown
  simp only [hcl, hgrid, if_true]
  rw [if_neg (by omega)]
  show toSizeT (gridTarget GridMove.downRelease s.selectorIndex _ _) < _
  unfold gridTarget
  simp only [hcs]
  exact_mod_cast h

/-- C1 (code defect): in a leaf directory with two books and the selection on
the first, a released Up computes `(0 + 2 - 3) % 2 = -1` in `int` arithmetic;
stored into the unsigned `selectorIndex` this is `4294967295`, outside
`0 <= index < 2`.  A held Up does the same, the page size 3 exceeding the list
size. -/
theorem grid_up_leaves_range :
    twoBooks.isGridMode = true ∧ twoBooks.files.length = 2 ∧ twoBooks.selectorIndex = 0 ∧
    getItemsPerPage smallScreen = 3 ∧
    gridTarget GridMove.upRelease 0 2 3 = -1 ∧
    (loopGridUpDown smallScreen GridMove.upRelease twoBooks).selectorIndex = 4294967295 ∧
    (loopGridUpDown smallScreen GridMove.upContinuous twoBooks).selectorIndex = 4294967295 ∧
    ¬ (loopGridUpDown smallScreen GridMove.upRelease twoBooks).selectorIndex
        < twoBooks.files.length := by
  decide

/-! ## The skipping loop -/

theorem skipLoaded_at_end (entries : List BookGridEntry) (pageEnd : Int) (fuel idx : Nat)
    (h : pageEnd ≤ static_cast_int idx) :
    skipLoaded entries pageEnd (fuel + 1) idx = some idx := by
  rw [skipLoaded, if_neg (by omega)]

theorem skipLoaded_at_unloaded (entries : List BookGridEntry) (pageEnd : Int) (fuel idx : Nat)
    (e : BookGridEntry) (he : entries[idx]? = some e) (hl : e.loaded = false) :
    skipLoaded entries pageEnd (fuel + 1) idx = some idx := by
  rw [skipLoaded]
  split
  · rw [he]
    simp [hl]
  · rfl

/-- The loop stops, at the first index from the cursor on that is at the page end
or holds an unloaded entry. -/
theorem skipLoaded_spec (entries : List BookGridEntry) (pageEnd : Int)
    (hlen : entries.length < 2147483648) (hpe : pageEnd ≤ (entries.length : Int)) :
    ∀ (fuel idx : Nat), idx ≤ entries.length → entries.length + 1 ≤ fuel + idx →
      ∃ k, skipLoaded entries pageEnd fuel idx = some k ∧ idx ≤ k ∧ k ≤ entries.length ∧
        (∀ j, idx ≤ j → j < k → ∃ e, entries[j]? = some e ∧ e.loaded = true) ∧
        (pageEnd ≤ (k : Int) ∨
          ((k : Int) < pageEnd ∧ ∃ e, entries[k]? = some e ∧ e.loaded = false)) := by
  intro fuel
  induction fuel with
  | zero => intro idx h1 h2; omega
  | succ fuel ih =>
    intro idx h1 h2
    have hc : static_cast_int idx = (idx : Int) := static_cast_int_of_lt idx (by omega)
    by_cases hlt : (idx : Int) < pageEnd
    · have hidx : idx < entries.length := by omega
      have he : entries[idx]? = some entries[idx] := List.getElem?_eq_getElem hidx
      by_cases hl : entries[idx].loaded = true
      · have hstep : skipLoaded entries pageEnd (fuel + 1) idx
            = skipLoaded entries pageEnd fuel (idx + 1) := by
          rw [skipLoaded, hc, if_pos hlt, he]
          simp only [hl, if_true]
          rw [succ_mod_size idx (by omega)]
        obtain ⟨k, hk, h3, h4, h5, h6⟩ := ih (idx + 1) (by omega) (by omega)
        refine ⟨k, by rw [hstep, hk], by omega, h4, ?_, h6⟩
        intro j hj1 hj2
        rcases Nat.eq_or_lt_of_le hj1 with e | hgt
        · subst e
          exact ⟨entries[idx], he, hl⟩
        · exact h5 j (by omega) hj2
      · have hl' : entries[idx].loaded = false := by simpa using hl
        refine ⟨idx, skipLoaded_at_unloaded entries pageEnd fuel idx _ he hl', le_refl _,
          h1, ?_, Or.inr ⟨hlt, entries[idx], he, hl'⟩⟩
        intro j hj1 hj2
        omega
    · refine ⟨idx, skipLoaded_at_end entries pageEnd fuel idx (by omega), le_refl _, h1, ?_,
        Or.inl (by omega)⟩
      intro j hj1 hj2
      omega

/-! ## One call of the cover loader -/

theorem getLast?_data_of_ne (p : String) (h : p ≠ "") : ∃ c, p.data.getLast? = some c := by
  cases hl : p.data.getLast? with
  | none =>
    exfalso
    apply h
    apply String.ext
    exact List.getLast?_eq_none_iff.1 hl
  | some c => exact ⟨c, rfl⟩

/-- What `loadNextPageCover` returns once the skipping loop has stopped at `k`. -/
theorem loadNextPageCover_of_skip (env : Env) (s : MyLibraryActivity) (k : Nat)
    (hk : skipLoaded s.gridEntries
      (min ((s.currentPage + 1) * getItemsPerPage env) (static_cast_int s.gridEntries.length))
      (s.gridEntries.length + 1) s.pageLoadIndex = some k) :
    loadNextPageCover env s =
      if static_cast_int k ≥
          min ((s.currentPage + 1) * getItemsPerPage env) (static_cast_int s.gridEntries.length) then
        some { s with pageLoadIndex := k, pageCoversLoaded := true }
      else
        match s.gridEntries[k]?, s.files[k]?, s.basepath.data.getLast? with
        | some entry, some filename, some last =>
            some { s with
              gridEntries := s.gridEntries.set k
                { loadEntry env ((if last ≠ '/' then s.basepath ++ "/" else s.basepath) ++ filename)
                    filename entry with loaded := true }
              pageLoadIndex := (k + 1) % SIZE_MOD
              updateRequired := true }
        | _, _, _ => none := by
  unfold loadNextPageCover
  simp only [hk]

/-! ## Loading a whole page -/

/-- The state reached after `k` calls on a page of `N` unloaded entries that
starts at index `P`: the cursor stands at `P + k`, the page is not yet marked
loaded and the entries from the cursor to the page end are still unloaded. -/
theorem loadNextPageCoverN_progress (env : Env) (s : MyLibraryActivity) (page : Int)
    (P N : Nat) (hP : page * getItemsPerPage env = (P : Int))
    (hend : ((P + N : Nat) : Int) =
      min ((page + 1) * getItemsPerPage env) (s.gridEntries.length : Int))
    (hunl : ∀ (i : Nat) (e : BookGridEntry), P ≤ i → i < P + N →
      s.gridEntries[i]? = some e → e.loaded = false)
    (hsz : s.gridEntries.length < 2147483648)
    (hfiles : s.files.length = s.gridEntries.length)
    (hbase : s.basepath ≠ "") :
    ∀ k, k ≤ N → ∃ t, loadNextPageCoverN env k (startPageLoad env page s) = some t ∧
      t.pageCoversLoaded = false ∧ t.currentPage = page ∧ t.pageLoadIndex = P + k ∧
      t.gridEntries.length = s.gridEntries.length ∧ t.files = s.files ∧
      t.basepath = s.basepath ∧
      ∀ (i : Nat) (e : BookGridEntry), P + k ≤ i → i < P + N →
        t.gridEntries[i]? = some e → e.loaded = false := by
  have hPN : P + N ≤ s.gridEntries.length := by
    have := min_le_right ((page + 1) * getItemsPerPage env) (s.gridEntries.length : Int)
    omega
  intro k
  induction k with
  | zero =>
    intro _
    refine ⟨startPageLoad env page s, rfl, rfl, rfl, ?_, rfl, rfl, rfl, ?_⟩
    · show toSizeT (page * getItemsPerPage env) = P + 0
      rw [hP, toSizeT_of_nat P (by omega)]
      rfl
    · intro i e h1 h2 h3
      exact hunl i e (by omega) h2 h3
  | succ k ih =>
    intro hk
    obtain ⟨t, ht, hflag, hpage, hcur, hlen, hf, hb, hu⟩ := ih (by omega)
    have hidx : P + k < t.gridEntries.length := by omega
    have he : t.gridEntries[P + k]? = some t.gridEntries[P + k] := List.getElem?_eq_getElem hidx
    have hl : t.gridEntries[P + k].loaded = false := hu _ _ (le_refl _) (by omega) he
    have hcl : static_cast_int t.gridEntries.length = (t.gridEntries.length : Int) :=
      static_cast_int_of_lt _ (by omega)
    have hpe : min ((t.currentPage + 1) * getItemsPerPage env)
        (static_cast_int t.gridEntries.length) = ((P + N : Nat) : Int) := by
      rw [hcl, hpage, hlen, hend]
    have hskip := skipLoaded_at_unloaded t.gridEntries
      (min ((t.currentPage + 1) * getItemsPerPage env) (static_cast_int t.gridEntries.length))
      t.gridEntries.length (P + k) _ he hl
    rw [← hcur] at hskip
    have hstep := loadNextPageCover_of_skip env t t.pageLoadIndex hskip
    have hck : static_cast_int t.pageLoadIndex = ((P + k : Nat) : Int) := by
      rw [hcur]
      exact static_cast_int_of_lt _ (by omega)
    rw [hpe, hck, if_neg (by omega)] at hstep
    have hfidx : P + k < t.files.length := by rw [hf]; omega
    have hfk : t.files[t.pageLoadIndex]? = some t.files[P + k] := by
      rw [hcur]
      exact List.getElem?_eq_getElem hfidx
    obtain ⟨c, hc⟩ := getLast?_data_of_ne t.basepath (by rw [hb]; exact hbase)
    have he2 : t.gridEntries[t.pageLoadIndex]? = some t.gridEntries[P + k] := by
      rw [hcur]
      exact he
    rw [he2, hfk, hc] at hstep
    have hrun : loadNextPageCoverN env (k + 1) (startPageLoad env page s)
        = (loadNextPageCoverN env k (startPageLoad env page s)).bind (loadNextPageCover env) := rfl
    rw [hrun, ht]
    refine ⟨_, hstep, ?_⟩
    · refine ⟨hflag, hpage, ?_, ?_, hf, hb, ?_⟩
      · show (t.pageLoadIndex + 1) % SIZE_MOD = P + (k + 1)
        rw [hcur, succ_mod_size _ (by omega)]
        omega
      · show (t.gridEntries.set _ _).length = _
        rw [List.length_set, hlen]
      · intro i e h1 h2 h3
        have h3b : (t.gridEntries.set t.pageLoadIndex _)[i]? = some e := h3
        rw [List.getElem?_set_ne (by omega)] at h3b
        exact hu i e (by omega) h2 h3b

/-- One call at an unloaded entry inside the page: the entry under the cursor is
replaced by a loaded one, the cursor moves on, and the page-loaded flag is not
touched. -/
theorem loadNextPageCover_loads_at_cursor (env : Env) (t : MyLibraryActivity) (c pe : Nat)
    (e : BookGridEntry) (hc : t.pageLoadIndex = c)
    (hpe : min ((t.currentPage + 1) * getItemsPerPage env) (t.gridEntries.length : Int)
      = (pe : Int))
    (hlt : c < pe) (he : t.gridEntries[c]? = some e) (hl : e.loaded = false)
    (hsz : t.gridEntries.length < 2147483648)
    (hfiles : t.files.length = t.gridEntries.length)
    (hbase : t.basepath ≠ "") :
    ∃ loadedEntry : BookGridEntry, loadedEntry.loaded = true ∧
      loadNextPageCover env t = some { t with
        gridEntries := t.gridEntries.set c loadedEntry
        pageLoadIndex := (c + 1) % SIZE_MOD
        updateRequired := true } := by
  have hidx : c < t.gridEntries.length := by
    have := min_le_right ((t.currentPage + 1) * getItemsPerPage env) (t.gridEntries.length : Int)
    omega
  have hcl : static_cast_int t.gridEntries.length = (t.gridEntries.length : Int) :=
    static_cast_int_of_lt _ (by omega)
  have hpe2 : min ((t.currentPage + 1) * getItemsPerPage env)
      (static_cast_int t.gridEntries.length) = (pe : Int) := by
    rw [hcl, hpe]
  have hskip := skipLoaded_at_unloaded t.gridEntries
    (min ((t.currentPage + 1) * getItemsPerPage env) (static_cast_int t.gridEntries.length))
    t.gridEntries.length c _ he hl
  have hstep := loadNextPageCover_of_skip env t c (by rw [hc]; exact hskip)
  have hck : static_cast_int c = (c : Int) := static_cast_int_of_lt _ (by omega)
  rw [hpe2, hck, if_neg (by omega)] at hstep
  have hfidx : c < t.files.length := by rw [hfiles]; exact hidx
  have hfk : t.files[c]? = some t.files[c] := List.getElem?_eq_getElem hfidx
  obtain ⟨last, hlast⟩ := getLast?_data_of_ne t.basepath hbase
  rw [he, hfk, hlast] at hstep
  exact ⟨_, rfl, hstep⟩

/-- C2, as stated, fails: on a page that holds one unloaded entry (`N = 1`) the
page is not marked loaded after the first call. -/
theorem page_not_marked_on_last_load :
    getItemsPerPage smallScreen = 3 ∧
    (cachedFirstPage.gridEntries.drop 3).map (fun e => e.loaded) = [false] ∧
    (loadNextPageCoverN smallScreen 1 (startPageLoad smallScreen 1 cachedFirstPage)).map
      (fun t => (t.pageCoversLoaded, t.gridEntries.map (fun e => e.loaded)))
      = some (false, [true, true, true, true]) := by
  decide

/-- C2, amended: for a page that holds `N ≥ 1` entries, all unloaded, with
`itemsPerPage > 0` and `page ≥ 0`, in a state with as many files as grid
entries, fewer than 2^31 of them, and a non-empty `basepath`: starting from
`startPageLoad page`, each of the first `N` calls of `loadNextPageCover`
returns, replaces the next entry of the page (entry `page * itemsPerPage + k`
on call `k + 1`), unloaded until then, by a loaded entry, changes no other
entry and leaves the page-loaded flag false; call `N + 1` returns, changes no
entry and sets the flag. -/
theorem page_marked_on_call_after_last_load (env : Env) (s : MyLibraryActivity) (page : Int)
    (N : Nat) (hipp : 0 < getItemsPerPage env) (hpage : 0 ≤ page) (_hN : 1 ≤ N)
    (hend : page * getItemsPerPage env + (N : Int) =
      min ((page + 1) * getItemsPerPage env) (s.gridEntries.length : Int))
    (hunl : ∀ (i : Nat) (e : BookGridEntry), page * getItemsPerPage env ≤ (i : Int) →
      (i : Int) < page * getItemsPerPage env + (N : Int) →
      s.gridEntries[i]? = some e → e.loaded = false)
    (hsz : s.gridEntries.length < 2147483648)
    (hfiles : s.files.length = s.gridEntries.length)
    (hbase : s.basepath ≠ "") :
    (∀ k, k < N → ∃ (t u : MyLibraryActivity) (e loadedEntry : BookGridEntry),
      loadNextPageCoverN env k (startPageLoad env page s) = some t ∧
      loadNextPageCoverN env (k + 1) (startPageLoad env page s) = some u ∧
      t.pageCoversLoaded = false ∧ u.pageCoversLoaded = false ∧
      t.gridEntries[(page * getItemsPerPage env).toNat + k]? = some e ∧ e.loaded = false ∧
      loadedEntry.loaded = true ∧
      u.gridEntries = t.gridEntries.set ((page * getItemsPerPage env).toNat + k) loadedEntry) ∧
    ∃ t u : MyLibraryActivity,
      loadNextPageCoverN env N (startPageLoad env page s) = some t ∧
      loadNextPageCoverN env (N + 1) (startPageLoad env page s) = some u ∧
      t.pageCoversLoaded = false ∧ u.pageCoversLoaded = true ∧
      u.gridEntries = t.gridEntries := by
  have hnn : 0 ≤ page * getItemsPerPage env := Int.mul_nonneg hpage (le_of_lt hipp)
  obtain ⟨P, hP⟩ := Int.eq_ofNat_of_zero_le hnn
  have hPn : (page * getItemsPerPage env).toNat = P := by
    rw [hP]
    rfl
  have hend2 : ((P + N : Nat) : Int) =
      min ((page + 1) * getItemsPerPage env) (s.gridEntries.length : Int) := by
    rw [← hend, hP]
    push_cast
    rfl
  have hunl2 : ∀ (i : Nat) (e : BookGridEntry), P ≤ i → i < P + N →
      s.gridEntries[i]? = some e → e.loaded = false := by
    intro i e h1 h2 h3
    exact hunl i e (by rw [hP]; omega) (by rw [hP]; omega) h3
  have key := loadNextPageCoverN_progress env s page P N hP hend2 hunl2 hsz hfiles hbase
  have hPN : P + N ≤ s.gridEntries.length := by
    have := min_le_right ((page + 1) * getItemsPerPage env) (s.gridEntries.length : Int)
    omega
  constructor
  · intro k hk
    obtain ⟨t, ht, hflag, hpg, hcur, hlen, hf, hb, hu⟩ := key k (by omega)
    have hidx : P + k < t.gridEntries.length := by omega
    have he : t.gridEntries[P + k]? = some t.gridEntries[P + k] := List.getElem?_eq_getElem hidx
    have hl : t.gridEntries[P + k].loaded = false := hu _ _ (le_refl _) (by omega) he
    obtain ⟨loadedEntry, hloaded, hstep⟩ := loadNextPageCover_loads_at_cursor env t (P + k)
      (P + N) _ hcur (by rw [hpg, hlen, hend2]) (by omega) he hl (by omega)
      (by rw [hf, hlen]; exact hfiles) (by rw [hb]; exact hbase)
    refine ⟨t, { t with
        gridEntries := t.gridEntries.set (P + k) loadedEntry
        pageLoadIndex := (P + k + 1) % SIZE_MOD
        updateRequired := true },
      t.gridEntries[P + k], loadedEntry, ht, ?_, hflag, hflag, ?_, hl, hloaded, ?_⟩
    · show (loadNextPageCoverN env k (startPageLoad env page s)).bind (loadNextPageCover env) = _
      rw [ht]
      exact hstep
    · rw [hPn]
      exact he
    · rw [hPn]
  · obtain ⟨t, ht, hflag, hpg, hcur, hlen, _, _, _⟩ := key N (le_refl _)
    have hcl : static_cast_int t.gridEntries.length = (t.gridEntries.length : Int) :=
      static_cast_int_of_lt _ (by omega)
    have hpe : min ((t.currentPage + 1) * getItemsPerPage env)
        (static_cast_int t.gridEntries.length) = ((P + N : Nat) : Int) := by
      rw [hcl, hpg, hlen, hend2]
    have hck : static_cast_int t.pageLoadIndex = ((P + N : Nat) : Int) := by
      rw [hcur]
      exact static_cast_int_of_lt _ (by omega)
    have hskip := skipLoaded_at_end t.gridEntries
      (min ((t.currentPage + 1) * getItemsPerPage env) (static_cast_int t.gridEntries.length))
      t.gridEntries.length t.pageLoadIndex (by rw [hpe, hck])
    have hstep := loadNextPageCover_of_skip env t t.pageLoadIndex hskip
    rw [hpe, hck, if_pos (le_refl _)] at hstep
    refine ⟨t, { t with pageLoadIndex := t.pageLoadIndex, pageCoversLoaded := true }, ht,
      ?_, hflag, rfl, rfl⟩
    show (loadNextPageCoverN env N (startPageLoad env page s)).bind (loadNextPageCover env) = _
    rw [ht]
    exact hstep

theorem page_marked_on_call_after_last_load_witness :
    (∀ k, k < 2 → ∃ (t u : MyLibraryActivity) (e loadedEntry : BookGridEntry),
      loadNextPageCoverN smallScreen k (startPageLoad smallScreen 0 twoBooks) = some t ∧
      loadNextPageCoverN smallScreen (k + 1) (startPageLoad smallScreen 0 twoBooks) = some u ∧
      t.pageCoversLoaded = false ∧ u.pageCoversLoaded = false ∧
      t.gridEntries[(0 * getItemsPerPage smallScreen).toNat + k]? = some e ∧
      e.loaded = false ∧ loadedEntry.loaded = true ∧
      u.gridEntries
        = t.gridEntries.set ((0 * getItemsPerPage smallScreen).toNat + k) loadedEntry) ∧
    ∃ t u : MyLibraryActivity,
      loadNextPageCoverN smallScreen 2 (startPageLoad smallScreen 0 twoBooks) = some t ∧
      loadNextPageCoverN smallScreen (2 + 1) (startPageLoad smallScreen 0 twoBooks) = some u ∧
      t.pageCoversLoaded = false ∧ u.pageCoversLoaded = true ∧
      u.gridEntries = t.gridEntries :=
  page_marked_on_call_after_last_load smallScreen twoBooks 0 2 (by decide) (by decide)
    (by decide) (by decide)
    (by
      intro i e _ h2 h3
      have hi : i < 2 := by
        have e1 : (0 : Int) * getItemsPerPage smallScreen + ((2 : Nat) : Int) = 2 := by decide
        rw [e1] at h2
        omega
      interval_cases i
      · have : e = unloadedEntry := by
          have h4 : some unloadedEntry = some e := h3
          injection h4 with h5
          exact h5.symm
        rw [this]
        rfl
      · have : e = unloadedEntry := by
          have h4 : some unloadedEntry = some e := h3
          injection h4 with h5
          exact h5.symm
        rw [this]
        rfl)
    (by decide) (by decide) (by decide)

/-! ## Directory loading -/

/-- After a successful enumeration `loadFiles` resets the pagination state and
the frame cache, and in grid mode holds one unloaded grid entry per file. -/
theorem loadFiles_success_resets (env : Env) (children : List DirChild) (s : MyLibraryActivity) :
    (loadFiles env (some children) s).currentPage = -1 ∧
    (loadFiles env (some children) s).pageLoadIndex = 0 ∧
    (loadFiles env (some children) s).pageCoversLoaded = false ∧
    (loadFiles env (some children) s).coverBufferStored = false ∧
    (loadFiles env (some children) s).cachedPage = -1 ∧
    (loadFiles env (some children) s).coverBuffer = none ∧
    ((loadFiles env (some children) s).isGridMode = true →
      (loadFiles env (some children) s).gridEntries.length
        = (loadFiles env (some children) s).files.length ∧
      ∀ e ∈ (loadFiles env (some children) s).gridEntries, e.loaded = false) := by
  refine ⟨rfl, rfl, rfl, rfl, rfl, rfl, ?_⟩
  intro h
  have hg : (loadFiles env (some children) s).gridEntries =
      List.replicate (loadFiles env (some children) s).files.length
        { title := "", coverBmpPath := "", loaded := false } := by
    simp only [loadFiles] at h ⊢
    rw [if_pos h]
  rw [hg]
  refine ⟨List.length_replicate _ _, ?_⟩
  intro e he
  rw [List.eq_of_mem_replicate he]

/-- C3 (code defect): when the directory cannot be opened, `loadFiles` returns
right after clearing the file list.  From a grid-mode state with loaded entries
and a cached frame it leaves grid mode on with four grid entries for zero
files, entries still loaded, the pagination state as it was and the cached
frame valid. -/
theorem loadFiles_failed_open_keeps_grid_state :
    (loadFiles smallScreen none cachedFirstPage).files = [] ∧
    (loadFiles smallScreen none cachedFirstPage).isGridMode = true ∧
    (loadFiles smallScreen none cachedFirstPage).gridEntries.length = 4 ∧
    (loadFiles smallScreen none cachedFirstPage).gridEntries.map (fun e => e.loaded)
      = [true, true, true, false] ∧
    (loadFiles smallScreen none cachedFirstPage).currentPage = 0 ∧
    (loadFiles smallScreen none cachedFirstPage).pageLoadIndex = 3 ∧
    (loadFiles smallScreen none cachedFirstPage).pageCoversLoaded = true ∧
    (loadFiles smallScreen none cachedFirstPage).coverBufferStored = true ∧
    (loadFiles smallScreen none cachedFirstPage).cachedPage = 0 := by
  decide
/-! ## Rendering a page other than the cached one -/

theorem pageItem_some (entries : List BookGridEntry) (files : List String) (i : Int)
    (h0 : 0 ≤ i) (h1 : i.toNat < entries.length) (hf : entries.length ≤ files.length) :
    ∃ x, pageItem entries files i = some x := by
  unfold pageItem
  rw [if_neg (by omega), List.getElem?_eq_getElem h1]
  simp only
  split
  · exact ⟨_, rfl⟩
  · rw [List.getElem?_eq_getElem (by omega)]
    exact ⟨_, rfl⟩

theorem pageSlice_some (entries : List BookGridEntry) (files : List String)
    (hf : entries.length ≤ files.length) :
    ∀ (n : Nat) (i : Int), 0 ≤ i → i + (n : Int) ≤ (entries.length : Int) →
      ∃ l, pageSlice entries files i n = some l := by
  intro n
  induction n with
  | zero => intro i _ _; exact ⟨[], rfl⟩
  | succ n ih =>
    intro i h0 h1
    obtain ⟨x, hx⟩ := pageItem_some entries files i h0 (by omega) hf
    obtain ⟨l, hl⟩ := ih (i + 1) (by omega) (by push_cast at h1; omega)
    refine ⟨x :: l, ?_⟩
    rw [pageSlice, hx, hl]

/-- The page of an index in range starts at or before the index. -/
theorem page_bounds (env : Env) (n : Nat) (hipp : 0 < getItemsPerPage env) :
    0 ≤ getPageForIndex env (n : Int) ∧
      getPageForIndex env (n : Int) * getItemsPerPage env ≤ (n : Int) := by
  unfold getPageForIndex
  simp only [gt_iff_lt, hipp, if_true]
  rw [Int.tdiv_eq_ediv (by omega) (le_of_lt hipp)]
  exact ⟨Int.ediv_nonneg (by omega) (le_of_lt hipp), Int.ediv_mul_le _ (by omega)⟩

/-- The footer of `renderGrid` returns when `ipp` is not zero and touches only
the frame buffer and the call log. -/
theorem renderGridFooter_some (env : Env) (viewPage : Int) (s : MyLibraryActivity)
    (hipp : getItemsPerPage env ≠ 0) :
    ∃ t, renderGridFooter env viewPage s = some t ∧
      t.coverBufferStored = s.coverBufferStored ∧ t.cachedPage = s.cachedPage ∧
      t.coverBuffer = s.coverBuffer ∧ t.gridEntries = s.gridEntries ∧ t.files = s.files ∧
      t.currentPage = s.currentPage ∧ t.pageCoversLoaded = s.pageCoversLoaded ∧
      t.pageLoadIndex = s.pageLoadIndex ∧ t.selectorIndex = s.selectorIndex ∧
      t.isGridMode = s.isGridMode ∧ t.basepath = s.basepath := by
  unfold renderGridFooter
  simp only [hipp, if_false]
  split
  · exact ⟨_, rfl, rfl, rfl, rfl, rfl, rfl, rfl, rfl, rfl, rfl, rfl, rfl⟩
  · exact ⟨_, rfl, rfl, rfl, rfl, rfl, rfl, rfl, rfl, rfl, rfl, rfl, rfl⟩

/-- The middle of `renderGrid` when the cached frame was not restored: it returns
when the page slice lies inside the entries, and the cache changes only if the
page is marked loaded, by a new snapshot tagged with the page shown. -/
theorem renderGridContent_not_restored (env : Env) (mallocOk : Bool)
    (viewPage pageStart pageItemCount localSelected : Int) (s : MyLibraryActivity)
    (hipp : getItemsPerPage env ≠ 0) (h0 : 0 ≤ pageStart) (hc : 0 ≤ pageItemCount)
    (hend : pageStart + pageItemCount ≤ (s.gridEntries.length : Int))
    (hfiles : s.gridEntries.length ≤ s.files.length) :
    ∃ t, renderGridContent env mallocOk viewPage pageStart pageItemCount localSelected false s
        = some t ∧
      t.gridEntries = s.gridEntries ∧ t.files = s.files ∧ t.currentPage = s.currentPage ∧
      t.pageCoversLoaded = s.pageCoversLoaded ∧ t.pageLoadIndex = s.pageLoadIndex ∧
      t.selectorIndex = s.selectorIndex ∧ t.isGridMode = s.isGridMode ∧
      t.basepath = s.basepath ∧
      if s.pageCoversLoaded = true then
        t.cachedPage = viewPage ∧ t.coverBufferStored = (mallocOk && s.frameBuffer.isSome)
      else
        t.coverBufferStored = s.coverBufferStored ∧ t.cachedPage = s.cachedPage ∧
          t.coverBuffer = s.coverBuffer := by
  obtain ⟨items, hitems⟩ := pageSlice_some s.gridEntries s.files hfiles pageItemCount.toNat
    pageStart h0 (by rw [Int.toNat_of_nonneg hc]; exact hend)
  unfold renderGridContent
  simp only [Bool.not_false, if_true, Bool.true_and]
  rw [if_neg (by omega)]
  have e1 : (draw (DrawOp.drawHeader (folderName env s.basepath)) (clearScreen s)).gridEntries
      = s.gridEntries := rfl
  have e2 : (draw (DrawOp.drawHeader (folderName env s.basepath)) (clearScreen s)).files
      = s.files := rfl
  rw [e1, e2, hitems]
  simp only
  by_cases hl : s.pageCoversLoaded = true
  · have e3 : (draw (DrawOp.drawBookCoverGrid items localSelected false)
        (draw (DrawOp.drawHeader (folderName env s.basepath)) (clearScreen s))).pageCoversLoaded
        = true := hl
    rw [e3, if_pos rfl]
    cases hfb : s.frameBuffer with
    | none =>
      obtain ⟨t, ht, h1, h2, h3, h4, h5, h6, h7, h8, h9, h10, h11⟩ :=
        renderGridFooter_some env viewPage
          { (storeCoverBuffer mallocOk (draw (DrawOp.drawBookCoverGrid items localSelected false)
              (draw (DrawOp.drawHeader (folderName env s.basepath)) (clearScreen s)))).2 with
            coverBufferStored := (storeCoverBuffer mallocOk
              (draw (DrawOp.drawBookCoverGrid items localSelected false)
                (draw (DrawOp.drawHeader (folderName env s.basepath)) (clearScreen s)))).1
            cachedPage := viewPage } hipp
      refine ⟨t, ht, ?_⟩
      simp only [storeCoverBuffer, draw, clearScreen, hfb, Option.map_none'] at h1 h2 h3 h4 h5 h6 h7 h8 h9 h10 h11
      simp [h1, h2, h4, h5, h6, h7, h8, h9, h10, h11, hl]
    | some fb =>
      obtain ⟨t, ht, h1, h2, h3, h4, h5, h6, h7, h8, h9, h10, h11⟩ :=
        renderGridFooter_some env viewPage
          { (storeCoverBuffer mallocOk (draw (DrawOp.drawBookCoverGrid items localSelected false)
              (draw (DrawOp.drawHeader (folderName env s.basepath)) (clearScreen s)))).2 with
            coverBufferStored := (storeCoverBuffer mallocOk
              (draw (DrawOp.drawBookCoverGrid items localSelected false)
                (draw (DrawOp.drawHeader (folderName env s.basepath)) (clearScreen s)))).1
            cachedPage := viewPage } hipp
      refine ⟨t, ht, ?_⟩
      cases mallocOk <;>
        simp only [storeCoverBuffer, draw, clearScreen, freeCoverBuffer, hfb, Option.map_some',
          if_true, if_false, Bool.false_eq_true] at h1 h2 h3 h4 h5 h6 h7 h8 h9 h10 h11 <;>
        simp [h1, h2, h4, h5, h6, h7, h8, h9, h10, h11, hl]
  · have hl2 : s.pageCoversLoaded = false := by simpa using hl
    have e3 : (draw (DrawOp.drawBookCoverGrid items localSelected false)
        (draw (DrawOp.drawHeader (folderName env s.basepath)) (clearScreen s))).pageCoversLoaded
        = false := hl2
    rw [e3, if_neg (by simp)]
    obtain ⟨t, ht, h1, h2, h3, h4, h5, h6, h7, h8, h9, h10, h11⟩ :=
      renderGridFooter_some env viewPage
        (draw (DrawOp.drawBookCoverGrid items localSelected false)
          (draw (DrawOp.drawHeader (folderName env s.basepath)) (clearScreen s))) hipp
    refine ⟨t, ht, h4, h5, h6, h7, h8, h9, h10, h11, ?_⟩
    rw [if_neg hl]
    exact ⟨h1, h2, h3⟩

/-- C4, as stated, fails: the first page is cached, the selection moves to the
second page, and after `renderGrid` the cached frame of the first page is still
valid. -/
theorem cached_frame_survives_page_change :
    cachedFirstPage.isGridMode = true ∧ cachedFirstPage.coverBufferStored = true ∧
    cachedFirstPage.cachedPage = 0 ∧
    getPageForIndex smallScreen (static_cast_int cachedFirstPage.selectorIndex) = 1 ∧
    (renderGrid smallScreen true cachedFirstPage).map
      (fun t => (t.coverBufferStored, t.cachedPage, t.coverBuffer))
      = some (true, 0, some [DrawOp.drawHeader "books"]) := by
  decide

/-- C4, amended: in a grid-mode state that holds a valid cached frame tagged with
page `p`, with `itemsPerPage > 0`, the selection index inside the grid entries
and as many files as grid entries, fewer than 2^31 of them, one `renderGrid`
whose view page `q` differs from `p` returns, and it
replaces the cached frame only by taking a new snapshot tagged `q`, which it
does exactly when `q` is already the current page and that page is marked
loaded (the new tag is `q`, so no valid frame tagged `p` is left).  In every
other case, in particular whenever `q` differs from the current page, the
cached frame tagged `p` stays valid: `coverBufferStored` stays true, `cachedPage`
stays `p` and the snapshot is untouched. -/
theorem renderGrid_cache_other_page (env : Env) (mallocOk : Bool) (s : MyLibraryActivity)
    (p : Int) (hipp : 0 < getItemsPerPage env)
    (hsel : s.selectorIndex < s.gridEntries.length)
    (hsz : s.gridEntries.length < 2147483648)
    (hfiles : s.files.length = s.gridEntries.length)
    (hstored : s.coverBufferStored = true) (hp : s.cachedPage = p)
    (hq : getPageForIndex env (static_cast_int s.selectorIndex) ≠ p) :
    ∃ t, renderGrid env mallocOk s = some t ∧
      if getPageForIndex env (static_cast_int s.selectorIndex) = s.currentPage
          ∧ s.pageCoversLoaded = true then
        t.cachedPage = getPageForIndex env (static_cast_int s.selectorIndex) ∧
          t.cachedPage ≠ p ∧ t.coverBufferStored = (mallocOk && s.frameBuffer.isSome)
      else
        t.coverBufferStored = true ∧ t.cachedPage = p ∧ t.coverBuffer = s.coverBuffer := by
  have hcs : static_cast_int s.selectorIndex = (s.selectorIndex : Int) :=
    static_cast_int_of_lt _ (by omega)
  have hcl : static_cast_int s.gridEntries.length = (s.gridEntries.length : Int) :=
    static_cast_int_of_lt _ hsz
  rw [hcs] at hq ⊢
  obtain ⟨hq0, hqs⟩ := page_bounds env s.selectorIndex hipp
  generalize hqdef : getPageForIndex env (s.selectorIndex : Int) = q at *
  have hipp0 : getItemsPerPage env ≠ 0 := by omega
  have hcount : 0 ≤ min (getItemsPerPage env)
      ((s.gridEntries.length : Int) - q * getItemsPerPage env) :=
    le_min (le_of_lt hipp) (by omega)
  have hend : q * getItemsPerPage env + min (getItemsPerPage env)
      ((s.gridEntries.length : Int) - q * getItemsPerPage env) ≤ (s.gridEntries.length : Int) := by
    have := min_le_right (getItemsPerPage env)
      ((s.gridEntries.length : Int) - q * getItemsPerPage env)
    omega
  have hqp : (p == q) = false := by simpa using Ne.symm hq
  by_cases hcur : q = s.currentPage
  · have hrun : renderGrid env mallocOk s =
        renderGridContent env mallocOk q (q * getItemsPerPage env)
          (min (getItemsPerPage env) ((s.gridEntries.length : Int) - q * getItemsPerPage env))
          ((s.selectorIndex : Int) - q * getItemsPerPage env) false s := by
      unfold renderGrid
      simp only [hcs, hqdef, hcur, ne_eq, not_true_eq_false, if_false, hstored, hp, Bool.true_and,
        hcl]
      rw [← hcur, hqp]
      simp only [Bool.false_eq_true, if_false]
    obtain ⟨t, ht, _, _, _, _, _, _, _, _, hcache⟩ :=
      renderGridContent_not_restored env mallocOk q (q * getItemsPerPage env)
        (min (getItemsPerPage env) ((s.gridEntries.length : Int) - q * getItemsPerPage env))
        ((s.selectorIndex : Int) - q * getItemsPerPage env) s hipp0
        (Int.mul_nonneg hq0 (le_of_lt hipp)) hcount hend (by omega)
    refine ⟨t, by rw [hrun, ht], ?_⟩
    by_cases hl : s.pageCoversLoaded = true
    · rw [if_pos hl] at hcache
      rw [if_pos ⟨hcur, hl⟩]
      exact ⟨hcache.1, by rw [hcache.1]; exact hq, hcache.2⟩
    · rw [if_neg hl] at hcache
      rw [if_neg (fun h => hl h.2)]
      exact ⟨by rw [hcache.1, hstored], by rw [hcache.2.1, hp], hcache.2.2⟩
  · have hrun : renderGrid env mallocOk s =
        renderGridContent env mallocOk q (q * getItemsPerPage env)
          (min (getItemsPerPage env) ((s.gridEntries.length : Int) - q * getItemsPerPage env))
          ((s.selectorIndex : Int) - q * getItemsPerPage env) false (startPageLoad env q s) := by
      unfold renderGrid
      simp only [hcs, hqdef, ne_eq, hcur, not_false_eq_true, if_true]
      have e1 : (startPageLoad env q s).coverBufferStored = true := hstored
      have e2 : (startPageLoad env q s).cachedPage = p := hp
      have e3 : (startPageLoad env q s).gridEntries = s.gridEntries := rfl
      have e4 : (startPageLoad env q s).selectorIndex = s.selectorIndex := rfl
      rw [e1, e2, e3, e4, hqp, hcl, hcs]
      simp only [Bool.true_and, Bool.false_eq_true, if_false]
    obtain ⟨t, ht, _, _, _, _, _, _, _, _, hcache⟩ :=
      renderGridContent_not_restored env mallocOk q (q * getItemsPerPage env)
        (min (getItemsPerPage env) ((s.gridEntries.length : Int) - q * getItemsPerPage env))
        ((s.selectorIndex : Int) - q * getItemsPerPage env) (startPageLoad env q s) hipp0
        (Int.mul_nonneg hq0 (le_of_lt hipp)) hcount hend
        (by show s.gridEntries.length ≤ s.files.length; omega)
    refine ⟨t, by rw [hrun, ht], ?_⟩
    have hnl : ¬ ((startPageLoad env q s).pageCoversLoaded = true) := by
      show ¬ (false = true)
      simp
    rw [if_neg hnl] at hcache
    rw [if_neg (fun h => hcur h.1)]
    exact ⟨by rw [hcache.1]; exact hstored, by rw [hcache.2.1]; exact hp, hcache.2.2⟩

theorem renderGrid_cache_other_page_witness :
    ∃ t, renderGrid smallScreen false cachedFirstPage = some t ∧
      if getPageForIndex smallScreen (static_cast_int cachedFirstPage.selectorIndex)
            = cachedFirstPage.currentPage ∧ cachedFirstPage.pageCoversLoaded = true then
        t.cachedPage = getPageForIndex smallScreen (static_cast_int cachedFirstPage.selectorIndex) ∧
          t.cachedPage ≠ 0 ∧
          t.coverBufferStored = (false && cachedFirstPage.frameBuffer.isSome)
      else
        t.coverBufferStored = true ∧ t.cachedPage = 0 ∧
          t.coverBuffer = cachedFirstPage.coverBuffer :=
  renderGrid_cache_other_page smallScreen false cachedFirstPage 0 (by decide) (by decide)
    (by decide) (by decide) (by decide) (by decide) (by decide)

/-! ## Frame effect of one loader call -/

/-- On a state with the cursor inside the grid entries, as many files as grid
entries, fewer than 2^31 of them, and a non-empty `basepath`, one call of
`loadNextPageCover` returns, keeps the number of grid
entries, leaves every loaded entry as it is, and either changes no entry or
changes exactly one: the first unloaded entry at or after the cursor and before
the end of the current page, whose loaded flag goes from false to true; the
title, cover path and loaded flag of every other entry are unchanged. -/
theorem loadNextPageCover_frame (env : Env) (s : MyLibraryActivity)
    (hcur : s.pageLoadIndex ≤ s.gridEntries.length)
    (hsz : s.gridEntries.length < 2147483648)
    (hfiles : s.files.length = s.gridEntries.length)
    (hbase : s.basepath ≠ "") :
    ∃ t, loadNextPageCover env s = some t ∧
      t.gridEntries.length = s.gridEntries.length ∧
      (∀ (j : Nat) (e : BookGridEntry), s.gridEntries[j]? = some e → e.loaded = true →
        t.gridEntries[j]? = some e) ∧
      (t.gridEntries = s.gridEntries ∨
        ∃ (k : Nat) (e : BookGridEntry), s.pageLoadIndex ≤ k ∧
          (k : Int) < min ((s.currentPage + 1) * getItemsPerPage env) (s.gridEntries.length : Int) ∧
          s.gridEntries[k]? = some e ∧ e.loaded = false ∧
          (∀ j : Nat, s.pageLoadIndex ≤ j → j < k →
            ∃ d, s.gridEntries[j]? = some d ∧ d.loaded = true) ∧
          (∃ d, t.gridEntries[k]? = some d ∧ d.loaded = true) ∧
          ∀ j : Nat, j ≠ k → t.gridEntries[j]? = s.gridEntries[j]?) := by
  have hcl : static_cast_int s.gridEntries.length = (s.gridEntries.length : Int) :=
    static_cast_int_of_lt _ hsz
  obtain ⟨k, hk, h1, h2, h3, h4⟩ := skipLoaded_spec s.gridEntries
    (min ((s.currentPage + 1) * getItemsPerPage env) (s.gridEntries.length : Int)) hsz
    (min_le_right _ _) (s.gridEntries.length + 1) s.pageLoadIndex hcur (by omega)
  have hck : static_cast_int k = (k : Int) := static_cast_int_of_lt k (by omega)
  rw [← hcl] at hk
  rw [loadNextPageCover_of_skip env s k hk, hck, hcl]
  rcases h4 with h4 | ⟨h4, e, he, hl⟩
  · rw [if_pos h4]
    exact ⟨_, rfl, rfl, fun j d hj _ => hj, Or.inl rfl⟩
  · rw [if_neg (by omega)]
    have hklt : k < s.gridEntries.length := by
      have := min_le_right ((s.currentPage + 1) * getItemsPerPage env) (s.gridEntries.length : Int)
      omega
    have hf : s.files[k]? = some s.files[k] := List.getElem?_eq_getElem (by omega)
    obtain ⟨c, hc⟩ := getLast?_data_of_ne s.basepath hbase
    rw [he, hf, hc]
    refine ⟨_, rfl, ?_, ?_, Or.inr ⟨k, e, h1, h4, he, hl, h3, ?_, ?_⟩⟩
    · simp
    · intro j d hj hd
      have hjk : k ≠ j := by
        intro e1
        subst e1
        rw [he] at hj
        injection hj with e2
        subst e2
        rw [hl] at hd
        cases hd
      show (s.gridEntries.set k _)[j]? = some d
      rw [List.getElem?_set_ne hjk]
      exact hj
    · refine ⟨_, List.getElem?_set_self hklt, rfl⟩
    · intro j hj
      show (s.gridEntries.set k _)[j]? = _
      rw [List.getElem?_set_ne (Ne.symm hj)]

theorem loadNextPageCover_frame_witness :
    ∃ t, loadNextPageCover smallScreen twoBooks = some t ∧
      t.gridEntries.length = twoBooks.gridEntries.length ∧
      (∀ (j : Nat) (e : BookGridEntry), twoBooks.gridEntries[j]? = some e → e.loaded = true →
        t.gridEntries[j]? = some e) ∧
      (t.gridEntries = twoBooks.gridEntries ∨
        ∃ (k : Nat) (e : BookGridEntry), twoBooks.pageLoadIndex ≤ k ∧
          (k : Int) < min ((twoBooks.currentPage + 1) * getItemsPerPage smallScreen)
            (twoBooks.gridEntries.length : Int) ∧
          twoBooks.gridEntries[k]? = some e ∧ e.loaded = false ∧
          (∀ j : Nat, twoBooks.pageLoadIndex ≤ j → j < k →
            ∃ d, twoBooks.gridEntries[j]? = some d ∧ d.loaded = true) ∧
          (∃ d, t.gridEntries[k]? = some d ∧ d.loaded = true) ∧
          ∀ j : Nat, j ≠ k → t.gridEntries[j]? = twoBooks.gridEntries[j]?) :=
  loadNextPageCover_frame smallScreen twoBooks (by decide) (by decide) (by decide) (by decide)

/-- C5 (code defect): the grid of `/books` holds one book and its first render
has started the load of page 0 (cursor 0, the entry unloaded); Back is released
while the parent directory cannot be opened, and `loadFiles` returns right after
clearing the file list, leaving grid mode on with the one grid entry.  The load
cursor and the current page are within the grid entries, and the call of
`loadNextPageCover` reads `files[0]` of the empty file list: it is undefined. -/
theorem loadNextPageCover_reads_cleared_file_list :
    shelfListed.files = ["books/"] ∧
    loopConfirm smallScreen (some [{ name := "a.epub", isDirectory := false }]) shelfListed
      = some (shelfEntered, []) ∧
    render smallScreen true { shelfEntered with updateRequired := false } = some shelfRendered ∧
    loopBack smallScreen 0 none shelfRendered = some (shelfLeft, []) ∧
    shelfLeft.isGridMode = true ∧ shelfLeft.pageCoversLoaded = false ∧
    shelfLeft.currentPage = 0 ∧ shelfLeft.pageLoadIndex = 0 ∧
    shelfLeft.gridEntries = [unloadedEntry] ∧ shelfLeft.files = [] ∧
    shelfLeft.basepath = "/" ∧
    (loadNextPageCover smallScreen shelfLeft).isNone = true :=
  ⟨by decide, rfl, rfl, rfl, by decide, by decide, by decide, by decide, by decide, by decide,
    by decide, by decide⟩

/-! ## Characters -/

theorem toNat_ofNat_small (n : Nat) (h : n < 55296) : (Char.ofNat n).toNat = n := by
  have hv : n.isValidChar := Or.inl h
  simp only [Char.ofNat, hv, Char.toNat, Char.ofNatAux, dite_true]
  show (BitVec.ofNatLt n _).toNat = n
  simp

theorem char_eq_of_toNat_eq {a b : Char} (h : a.toNat = b.toNat) : a = b := by
  apply Char.ext
  simp only [Char.toNat] at h
  exact UInt32.toNat.inj h

theorem tolower_toNat (c : Char) :
    (tolower c).toNat = if 65 ≤ c.toNat ∧ c.toNat ≤ 90 then c.toNat + 32 else c.toNat := by
  unfold tolower
  split
  · rename_i h
    exact toNat_ofNat_small _ (by omega)
  · rfl

theorem isdigit_iff (c : Char) : isdigit c = true ↔ 48 ≤ c.toNat ∧ c.toNat ≤ 57 := by
  simp [isdigit]

theorem tolower_of_isdigit {c : Char} (h : isdigit c = true) : tolower c = c := by
  rw [isdigit_iff] at h
  unfold tolower
  rw [if_neg (by omega)]

theorem isdigit_tolower (c : Char) : isdigit (tolower c) = isdigit c := by
  rw [Bool.eq_iff_iff, isdigit_iff, isdigit_iff, tolower_toNat]
  split <;> omega

theorem isdigit_zero {c : Char} (h : (c == '0') = true) : isdigit c = true := by
  have : c = '0' := by simpa using h
  subst this
  decide

theorem digitVal_zero {c : Char} (h : (c == '0') = true) : digitVal c = 0 := by
  have : c = '0' := by simpa using h
  subst this
  decide

theorem digitVal_pos {c : Char} (hd : isdigit c = true) (h : (c == '0') = false) :
    1 ≤ digitVal c := by
  rw [isdigit_iff] at hd
  have hne : c ≠ '0' := by simpa using h
  have : c.toNat ≠ 48 := fun e => hne (char_eq_of_toNat_eq (by rw [e]; decide))
  unfold digitVal
  omega

theorem digitVal_lt {c : Char} (hd : isdigit c = true) : digitVal c < 10 := by
  rw [isdigit_iff] at hd
  unfold digitVal
  omega

/-! ## Digit runs and their values -/

theorem numVal_eq (v : Nat) (ds : List Char) :
    numVal v ds = v * 10 ^ ds.length + numVal 0 ds := by
  induction ds generalizing v with
  | nil => simp [numVal]
  | cons d ds ih =>
    have h1 : numVal v (d :: ds) = numVal (10 * v + digitVal d) ds := rfl
    have h2 : numVal 0 (d :: ds) = numVal (10 * 0 + digitVal d) ds := rfl
    rw [h1, h2, ih (10 * v + digitVal d), ih (10 * 0 + digitVal d), List.length_cons, pow_succ]
    ring

theorem numVal_lt (ds : List Char) (hd : ∀ c ∈ ds, isdigit c = true) :
    numVal 0 ds < 10 ^ ds.length := by
  induction ds using List.reverseRecOn with
  | nil => simp [numVal]
  | append_singleton ds d ih =>
    have hds : ∀ c ∈ ds, isdigit c = true := fun c hc => hd c (by simp [hc])
    have hdd : digitVal d < 10 := digitVal_lt (hd d (by simp))
    have h := ih hds
    have e : numVal 0 (ds ++ [d]) = 10 * numVal 0 ds + digitVal d := by
      simp [numVal, List.foldl_append]
    rw [e, List.length_append, List.length_singleton, pow_succ]
    omega

theorem numVal_ge (d : Char) (ds : List Char) (hd : isdigit d = true)
    (h0 : (d == '0') = false) : 10 ^ ds.length ≤ numVal 0 (d :: ds) := by
  have h2 : numVal 0 (d :: ds) = numVal (10 * 0 + digitVal d) ds := rfl
  rw [h2, numVal_eq]
  have := digitVal_pos hd h0
  have : 1 * 10 ^ ds.length ≤ (10 * 0 + digitVal d) * 10 ^ ds.length :=
    Nat.mul_le_mul_right _ (by omega)
  omega

/-- A run without a leading zero that is shorter has the smaller value. -/
theorem numVal_lt_of_length_lt (d1 d2 : List Char)
    (h1 : ∀ c ∈ d1, isdigit c = true) (h2 : ∀ c ∈ d2, isdigit c = true)
    (hz : ∀ c r, d2 = c :: r → (c == '0') = false)
    (hlen : d1.length < d2.length) : numVal 0 d1 < numVal 0 d2 := by
  cases d2 with
  | nil => simp at hlen
  | cons c r =>
    have hge := numVal_ge c r (h2 c (by simp)) (hz c r rfl)
    have hlt := numVal_lt d1 h1
    have : 10 ^ d1.length ≤ 10 ^ r.length :=
      Nat.pow_le_pow_right (by omega) (by simpa [Nat.lt_succ_iff] using hlen)
    omega

theorem digitVal_lt_of_toNat_lt {a b : Char} (ha : isdigit a = true) (h : a.toNat < b.toNat) :
    digitVal a < digitVal b := by
  rw [isdigit_iff] at ha
  unfold digitVal
  omega

/-- On two digit runs of one length the first differing digit decides the order
of the values. -/
theorem firstDiff_some (d1 d2 : List Char) (v : Nat)
    (h1 : ∀ c ∈ d1, isdigit c = true) (h2 : ∀ c ∈ d2, isdigit c = true)
    (hlen : d1.length = d2.length) (r : Bool) (hr : firstDiff d1 d2 = some r) :
    (r = true ↔ numVal v d1 < numVal v d2) ∧ numVal v d1 ≠ numVal v d2 := by
  induction d1 generalizing d2 v with
  | nil => cases d2 <;> simp [firstDiff] at hr
  | cons a r1 ih =>
    cases d2 with
    | nil => simp at hlen
    | cons b r2 =>
      have hl : r1.length = r2.length := by simpa using hlen
      have ha := h1 a (by simp)
      have hb := h2 b (by simp)
      have hr1 : ∀ c ∈ r1, isdigit c = true := fun c hc => h1 c (by simp [hc])
      have hr2 : ∀ c ∈ r2, isdigit c = true := fun c hc => h2 c (by simp [hc])
      have e1 : numVal v (a :: r1) = numVal (10 * v + digitVal a) r1 := rfl
      have e2 : numVal v (b :: r2) = numVal (10 * v + digitVal b) r2 := rfl
      by_cases hab : a = b
      · subst hab
        have hr' : firstDiff r1 r2 = some r := by simpa [firstDiff] using hr
        rw [e1, e2]
        exact ih r2 _ hr1 hr2 hl hr'
      · have hr' : r = decide (a.toNat < b.toNat) := by
          simp only [firstDiff, ne_eq, hab, not_false_eq_true, if_true, Option.some.injEq] at hr
          exact hr.symm
        have hne : a.toNat ≠ b.toNat := fun e => hab (char_eq_of_toNat_eq e)
        rw [e1, e2, numVal_eq _ r1, numVal_eq _ r2, hl]
        have b1 := numVal_lt r1 hr1
        have b2 := numVal_lt r2 hr2
        rw [hl] at b1
        rcases Nat.lt_or_gt_of_ne hne with hlt | hgt
        · have hd := digitVal_lt_of_toNat_lt ha hlt
          have : (10 * v + digitVal a + 1) * 10 ^ r2.length ≤ (10 * v + digitVal b) * 10 ^ r2.length :=
            Nat.mul_le_mul_right _ (by omega)
          have hx : (10 * v + digitVal a + 1) * 10 ^ r2.length
              = (10 * v + digitVal a) * 10 ^ r2.length + 10 ^ r2.length := by ring
          subst hr'
          simp only [decide_eq_true_eq]
          constructor
          · exact ⟨fun _ => by omega, fun _ => hlt⟩
          · omega
        · have hd := digitVal_lt_of_toNat_lt hb hgt
          have : (10 * v + digitVal b + 1) * 10 ^ r2.length ≤ (10 * v + digitVal a) * 10 ^ r2.length :=
            Nat.mul_le_mul_right _ (by omega)
          have hx : (10 * v + digitVal b + 1) * 10 ^ r2.length
              = (10 * v + digitVal b) * 10 ^ r2.length + 10 ^ r2.length := by ring
          subst hr'
          simp only [decide_eq_true_eq]
          constructor
          · exact ⟨fun h => by omega, fun h => by omega⟩
          · omega

theorem firstDiff_none (d1 d2 : List Char) (hlen : d1.length = d2.length)
    (h : firstDiff d1 d2 = none) : d1 = d2 := by
  induction d1 generalizing d2 with
  | nil => cases d2 with
    | nil => rfl
    | cons b r2 => simp at hlen
  | cons a r1 ih =>
    cases d2 with
    | nil => simp at hlen
    | cons b r2 =>
      by_cases hab : a = b
      · subst hab
        have h' : firstDiff r1 r2 = none := by simpa [firstDiff] using h
        rw [ih r2 (by simpa using hlen) h']
      · simp [firstDiff, hab] at h

/-! ## Tokens -/

theorem tokens_run (ds rest : List Char) (v : Nat)
    (hd : ∀ c ∈ ds, isdigit c = true) (hr : ∀ c r, rest = c :: r → isdigit c = false) :
    tokens (some v) (ds ++ rest) = toLex (48, numVal v ds) :: tokens none rest := by
  induction ds generalizing v with
  | nil =>
    cases rest with
    | nil => rfl
    | cons c r => simp [tokens, hr c r rfl, numVal]
  | cons d ds ih =>
    have hdd : isdigit d = true := hd d (by simp)
    have e : numVal v (d :: ds) = numVal (10 * v + digitVal d) ds := rfl
    rw [e, ← ih (10 * v + digitVal d) (fun c hc => hd c (by simp [hc]))]
    simp [tokens, hdd]

theorem dropWhile_head_false (p : Char → Bool) (s : List Char) :
    ∀ c r, s.dropWhile p = c :: r → p c = false := by
  induction s with
  | nil => intro c r h; simp at h
  | cons a s ih =>
    intro c r h
    by_cases ha : p a = true
    · rw [List.dropWhile_cons_of_pos ha] at h
      exact ih c r h
    · rw [List.dropWhile_cons_of_neg ha] at h
      injection h with h1 h2
      subst h1
      simpa using ha

theorem takeWhile_all (p : Char → Bool) (s : List Char) : ∀ c ∈ s.takeWhile p, p c = true :=
  fun _ hc => List.mem_takeWhile_imp hc

/-- Tokens of a string that starts with a digit: the value of its leading digit
run, then the tokens of what follows the run. -/
theorem tokens_digit (c : Char) (r : List Char) (h : isdigit c = true) :
    tokens none (c :: r) =
      toLex (48, numVal 0 ((c :: r).takeWhile isdigit)) :: tokens none ((c :: r).dropWhile isdigit) := by
  have e0 : tokens none (c :: r) = tokens (some (digitVal c)) r := by simp [tokens, h]
  have e1 : (c :: r).takeWhile isdigit = c :: r.takeWhile isdigit := List.takeWhile_cons_of_pos h
  have e2 : (c :: r).dropWhile isdigit = r.dropWhile isdigit := List.dropWhile_cons_of_pos h
  have e3 : numVal 0 (c :: r.takeWhile isdigit) = numVal (digitVal c) (r.takeWhile isdigit) := by
    show numVal (10 * 0 + digitVal c) _ = _
    simp
  rw [e0, e1, e2, e3]
  conv_lhs => rw [← List.takeWhile_append_dropWhile isdigit r]
  exact tokens_run _ _ _ (takeWhile_all _ _) (dropWhile_head_false _ _)

theorem tokens_nondigit (c : Char) (r : List Char) (h : isdigit c = false) :
    tokens none (c :: r) = toLex ((tolower c).toNat, 0) :: tokens none r := by
  simp [tokens, h]

theorem tokens_eq_nil_iff (s : List Char) : tokens none s = [] ↔ s = [] := by
  cases s with
  | nil => simp [tokens]
  | cons c r =>
    by_cases h : isdigit c = true
    · simp [tokens_digit c r h]
    · simp [tokens_nondigit c r (by simpa using h)]

/-! ## Skipping leading zeros -/

theorem dropWhile_digit_dropWhile_zero (s : List Char) :
    (s.dropWhile (fun c => c == '0')).dropWhile isdigit = s.dropWhile isdigit := by
  induction s with
  | nil => rfl
  | cons a s ih =>
    by_cases ha : (a == '0') = true
    · rw [List.dropWhile_cons_of_pos (p := fun c => c == '0') ha,
        List.dropWhile_cons_of_pos (isdigit_zero ha), ih]
    · rw [List.dropWhile_cons_of_neg (p := fun c => c == '0') ha]

theorem numVal_takeWhile_dropWhile_zero (s : List Char) :
    numVal 0 ((s.dropWhile (fun c => c == '0')).takeWhile isdigit)
      = numVal 0 (s.takeWhile isdigit) := by
  induction s with
  | nil => rfl
  | cons a s ih =>
    by_cases ha : (a == '0') = true
    · rw [List.dropWhile_cons_of_pos (p := fun c => c == '0') ha,
        List.takeWhile_cons_of_pos (isdigit_zero ha), ih]
      show _ = numVal (10 * 0 + digitVal a) _
      rw [digitVal_zero ha]
    · rw [List.dropWhile_cons_of_neg (p := fun c => c == '0') ha]

theorem take_length_takeWhile (p : Char → Bool) (s : List Char) :
    s.take (s.takeWhile p).length = s.takeWhile p := by
  induction s with
  | nil => rfl
  | cons a s ih =>
    by_cases ha : p a = true
    · rw [List.takeWhile_cons_of_pos ha, List.length_cons, List.take_succ_cons, ih]
    · rw [List.takeWhile_cons_of_neg ha]; rfl

theorem drop_length_takeWhile (p : Char → Bool) (s : List Char) :
    s.drop (s.takeWhile p).length = s.dropWhile p := by
  induction s with
  | nil => rfl
  | cons a s ih =>
    by_cases ha : p a = true
    · rw [List.takeWhile_cons_of_pos ha, List.dropWhile_cons_of_pos ha, List.length_cons,
        List.drop_succ_cons, ih]
    · rw [List.takeWhile_cons_of_neg ha, List.dropWhile_cons_of_neg ha]; rfl

theorem length_dropWhile_le (p : Char → Bool) (s : List Char) :
    (s.dropWhile p).length ≤ s.length := by
  induction s with
  | nil => simp
  | cons a s ih =>
    by_cases ha : p a = true
    · rw [List.dropWhile_cons_of_pos ha, List.length_cons]; omega
    · rw [List.dropWhile_cons_of_neg ha]

/-! ## Lexicographic order on token lists -/

theorem tok_cons_lt_cons (a b : Tok) (l1 l2 : List Tok) :
    a :: l1 < b :: l2 ↔ a < b ∨ (a = b ∧ l1 < l2) := by
  constructor
  · intro h
    cases h with
    | cons h => exact Or.inr ⟨rfl, h⟩
    | rel h => exact Or.inl h
  · rintro (h | ⟨rfl, h⟩)
    · exact List.Lex.rel h
    · exact List.Lex.cons h

theorem tok_lt (a b c d : Nat) :
    (toLex (a, b) : Tok) < toLex (c, d) ↔ a < c ∨ (a = c ∧ b < d) :=
  Prod.Lex.lt_iff _ _

theorem tok_eq (a b c d : Nat) : (toLex (a, b) : Tok) = toLex (c, d) ↔ a = c ∧ b = d := by
  constructor
  · intro h
    have := congrArg ofLex h
    simpa using this
  · rintro ⟨rfl, rfl⟩; rfl

/-! ## The comparator loop computes the token order -/

theorem takeWhile_head (p : Char → Bool) (s : List Char) (c : Char) (r : List Char)
    (h : s.takeWhile p = c :: r) : ∃ r', s = c :: r' := by
  cases s with
  | nil => simp at h
  | cons a s =>
    by_cases ha : p a = true
    · rw [List.takeWhile_cons_of_pos ha] at h
      injection h with h1 _
      exact ⟨s, by rw [h1]⟩
    · rw [List.takeWhile_cons_of_neg ha] at h
      cases h

/-- The digit run that the comparator measures after the leading zeros has no
leading zero. -/
theorem stripped_run_head (s : List Char) (c : Char) (r : List Char)
    (h : (s.dropWhile (fun c => c == '0')).takeWhile isdigit = c :: r) : (c == '0') = false := by
  obtain ⟨r', hr'⟩ := takeWhile_head _ _ _ _ h
  exact dropWhile_head_false (fun c => c == '0') s c r' hr'

theorem natLessAux_digits (fuel : Nat) (c1 : Char) (r1 : List Char) (c2 : Char) (r2 : List Char)
    (h1 : isdigit c1 = true) (h2 : isdigit c2 = true) :
    natLessAux (fuel + 1) (c1 :: r1) (c2 :: r2) =
      if (((c1 :: r1).dropWhile (fun c => c == '0')).takeWhile isdigit).length
          ≠ (((c2 :: r2).dropWhile (fun c => c == '0')).takeWhile isdigit).length then
        some (decide ((((c1 :: r1).dropWhile (fun c => c == '0')).takeWhile isdigit).length
          < (((c2 :: r2).dropWhile (fun c => c == '0')).takeWhile isdigit).length))
      else
        match firstDiff (((c1 :: r1).dropWhile (fun c => c == '0')).takeWhile isdigit)
            (((c2 :: r2).dropWhile (fun c => c == '0')).take
              (((c1 :: r1).dropWhile (fun c => c == '0')).takeWhile isdigit).length) with
        | some r => some r
        | none => natLessAux fuel ((c1 :: r1).dropWhile isdigit) ((c2 :: r2).dropWhile isdigit) := by
  rw [natLessAux]
  simp only [h1, h2, Bool.and_self, if_true, take_length_takeWhile, drop_length_takeWhile,
    dropWhile_digit_dropWhile_zero]

theorem natLessAux_chars (fuel : Nat) (c1 : Char) (r1 : List Char) (c2 : Char) (r2 : List Char)
    (h : (isdigit c1 && isdigit c2) = false) :
    natLessAux (fuel + 1) (c1 :: r1) (c2 :: r2) =
      if tolower c1 ≠ tolower c2 then some (decide ((tolower c1).toNat < (tolower c2).toNat))
      else natLessAux fuel r1 r2 := by
  rw [natLessAux]
  simp only [h, Bool.false_eq_true, if_false]

theorem natLessAux_spec (fuel : Nat) : ∀ s1 s2 : List Char, s1.length < fuel →
    ∃ r, natLessAux fuel s1 s2 = some r ∧ (r = true ↔ tokens none s1 < tokens none s2) := by
  induction fuel with
  | zero => intro s1 s2 h; omega
  | succ fuel ih =>
    intro s1 s2 hlen
    cases s1 with
    | nil =>
      cases s2 with
      | nil => exact ⟨false, rfl, by simp [tokens]⟩
      | cons c2 r2 =>
        refine ⟨true, rfl, ?_⟩
        have hne : tokens none (c2 :: r2) ≠ [] := fun e => by
          have := (tokens_eq_nil_iff _).1 e
          cases this
        cases hk : tokens none (c2 :: r2) with
        | nil => exact absurd hk hne
        | cons t ts => simp [tokens, List.nil_lt_cons]
    | cons c1 r1 =>
      have hr1 : r1.length < fuel := by simpa using hlen
      cases s2 with
      | nil =>
        refine ⟨false, rfl, ?_⟩
        simp only [Bool.false_eq_true, false_iff]
        exact List.Lex.not_nil_right _ _
      | cons c2 r2 =>
        by_cases hd : (isdigit c1 && isdigit c2) = true
        · -- both strings are at the start of a number
          have h1 : isdigit c1 = true := by
            simp only [Bool.and_eq_true] at hd; exact hd.1
          have h2 : isdigit c2 = true := by
            simp only [Bool.and_eq_true] at hd; exact hd.2
          rw [natLessAux_digits fuel c1 r1 c2 r2 h1 h2, tokens_digit c1 r1 h1,
            tokens_digit c2 r2 h2, ← numVal_takeWhile_dropWhile_zero (c1 :: r1),
            ← numVal_takeWhile_dropWhile_zero (c2 :: r2), tok_cons_lt_cons, tok_lt, tok_eq]
          generalize hD1 : ((c1 :: r1).dropWhile (fun c => c == '0')).takeWhile isdigit = D1
          generalize hD2 : ((c2 :: r2).dropWhile (fun c => c == '0')).takeWhile isdigit = D2
          have hall1 : ∀ c ∈ D1, isdigit c = true := by
            rw [← hD1]; exact takeWhile_all _ _
          have hall2 : ∀ c ∈ D2, isdigit c = true := by
            rw [← hD2]; exact takeWhile_all _ _
          have hz1 : ∀ c r, D1 = c :: r → (c == '0') = false := by
            intro c r e; rw [← hD1] at e; exact stripped_run_head _ c r e
          have hz2 : ∀ c r, D2 = c :: r → (c == '0') = false := by
            intro c r e; rw [← hD2] at e; exact stripped_run_head _ c r e
          by_cases hl : D1.length = D2.length
          · rw [if_neg (by simpa using hl)]
            have ht : ((c2 :: r2).dropWhile (fun c => c == '0')).take D1.length = D2 := by
              rw [hl, ← hD2, take_length_takeWhile]
            rw [ht]
            cases hf : firstDiff D1 D2 with
            | some r =>
              obtain ⟨hiff, hne⟩ := firstDiff_some D1 D2 0 hall1 hall2 hl r hf
              refine ⟨r, rfl, ?_⟩
              rw [hiff]
              constructor
              · intro h; exact Or.inl (Or.inr ⟨rfl, h⟩)
              · rintro (h | ⟨⟨_, h⟩, _⟩)
                · rcases h with h | ⟨_, h⟩
                  · omega
                  · exact h
                · exact absurd h hne
            | none =>
              have hDD : D1 = D2 := firstDiff_none D1 D2 hl hf
              have hlen1 : ((c1 :: r1).dropWhile isdigit).length < fuel := by
                rw [List.dropWhile_cons_of_pos h1]
                exact lt_of_le_of_lt (length_dropWhile_le _ _) hr1
              obtain ⟨r, hr, hiff⟩ := ih ((c1 :: r1).dropWhile isdigit)
                ((c2 :: r2).dropWhile isdigit) hlen1
              refine ⟨r, hr, ?_⟩
              rw [hiff, hDD]
              constructor
              · intro h; exact Or.inr ⟨⟨rfl, rfl⟩, h⟩
              · rintro (h | ⟨_, h⟩)
                · rcases h with h | ⟨_, h⟩ <;> omega
                · exact h
          · rw [if_pos (by simpa using hl)]
            refine ⟨_, rfl, ?_⟩
            simp only [decide_eq_true_eq]
            rcases Nat.lt_or_gt_of_ne hl with hlt | hgt
            · have := numVal_lt_of_length_lt D1 D2 hall1 hall2 hz2 hlt
              constructor
              · intro _; exact Or.inl (Or.inr ⟨trivial, this⟩)
              · intro _; exact hlt
            · have := numVal_lt_of_length_lt D2 D1 hall2 hall1 hz1 hgt
              constructor
              · intro h; omega
              · rintro (h | ⟨⟨_, h⟩, _⟩)
                · rcases h with h | ⟨_, h⟩ <;> omega
                · omega
        · -- regular case-insensitive character comparison
          have hd' : (isdigit c1 && isdigit c2) = false := by simpa using hd
          rw [natLessAux_chars fuel c1 r1 c2 r2 hd']
          have hL1 := tolower_toNat c1
          have hL2 := tolower_toNat c2
          by_cases h1 : isdigit c1 = true
          · have h2 : isdigit c2 = false := by
              rw [h1] at hd'; simpa using hd'
            have h1' := (isdigit_iff c1).1 h1
            have h2' : ¬ (48 ≤ c2.toNat ∧ c2.toNat ≤ 57) := by
              rw [← isdigit_iff]; simp [h2]
            have hne : tolower c1 ≠ tolower c2 := by
              intro e
              have := congrArg Char.toNat e
              rw [hL1, hL2] at this
              split at this <;> split at this <;> omega
            rw [if_pos hne, tokens_digit c1 r1 h1, tokens_nondigit c2 r2 h2, tok_cons_lt_cons,
              tok_lt, tok_eq]
            refine ⟨_, rfl, ?_⟩
            simp only [decide_eq_true_eq]
            rw [hL1, hL2]
            split <;> split <;> omega
          · have h1f : isdigit c1 = false := by simpa using h1
            have h1' : ¬ (48 ≤ c1.toNat ∧ c1.toNat ≤ 57) := by
              rw [← isdigit_iff]; simp [h1f]
            by_cases h2 : isdigit c2 = true
            · have h2' := (isdigit_iff c2).1 h2
              have hne : tolower c1 ≠ tolower c2 := by
                intro e
                have := congrArg Char.toNat e
                rw [hL1, hL2] at this
                split at this <;> split at this <;> omega
              rw [if_pos hne, tokens_nondigit c1 r1 h1f, tokens_digit c2 r2 h2, tok_cons_lt_cons,
                tok_lt, tok_eq]
              refine ⟨_, rfl, ?_⟩
              simp only [decide_eq_true_eq]
              rw [hL1, hL2]
              split <;> split <;> omega
            · have h2f : isdigit c2 = false := by simpa using h2
              rw [tokens_nondigit c1 r1 h1f, tokens_nondigit c2 r2 h2f, tok_cons_lt_cons,
                tok_lt, tok_eq]
              by_cases he : tolower c1 = tolower c2
              · rw [if_neg (by simpa using he)]
                obtain ⟨r, hr, hiff⟩ := ih r1 r2 hr1
                refine ⟨r, hr, ?_⟩
                rw [hiff, he]
                constructor
                · intro h; exact Or.inr ⟨⟨rfl, rfl⟩, h⟩
                · rintro (h | ⟨_, h⟩)
                  · omega
                  · exact h
              · rw [if_pos he]
                refine ⟨_, rfl, ?_⟩
                simp only [decide_eq_true_eq]
                have hn : (tolower c1).toNat ≠ (tolower c2).toNat :=
                  fun e => he (char_eq_of_toNat_eq e)
                constructor
                · intro h; exact Or.inl (Or.inl h)
                · rintro (h | ⟨⟨h, _⟩, _⟩)
                  · omega
                  · exact absurd h hn

/-- The fuel handed to the loop by `natLess` is enough: the loop returns, and
its verdict is the order of the token sequences. -/
theorem natLess_iff (s1 s2 : List Char) :
    natLess s1 s2 = true ↔ tokens none s1 < tokens none s2 := by
  obtain ⟨r, hr, hiff⟩ := natLessAux_spec (s1.length + 1) s1 s2 (Nat.lt_succ_self _)
  unfold natLess
  rw [hr]
  exact hiff

theorem less_iff (a b : String) : less a b = true ↔ sortKey a < sortKey b := by
  unfold less sortKey
  rw [tok_cons_lt_cons, tok_lt, tok_eq]
  cases ha : isDirName a <;> cases hb : isDirName b <;> simp [natLess_iff]

theorem less_eq_false_iff (a b : String) : less a b = false ↔ sortKey b ≤ sortKey a := by
  rw [← not_lt, ← less_iff]
  simp

theorem less_asymm (a b : String) (h : less a b = true) : less b a = false := by
  rw [less_eq_false_iff]
  exact le_of_lt ((less_iff a b).1 h)

/-! ## Joining and lower-casing names -/

theorem tokens_append_of_head (Q : List Char) (hQ : ∀ c r, Q = c :: r → isdigit c = false) :
    ∀ (P : List Char) (acc : Option Nat), tokens acc (P ++ Q) = tokens acc P ++ tokens none Q := by
  intro P
  induction P with
  | nil =>
    intro acc
    cases acc with
    | none => rfl
    | some v =>
      cases Q with
      | nil => rfl
      | cons c r => simp [tokens, hQ c r rfl]
  | cons c P ih =>
    intro acc
    cases acc with
    | none =>
      by_cases hc : isdigit c = true
      · simp [tokens, hc, ih]
      · simp [tokens, hc, ih]
    | some v =>
      by_cases hc : isdigit c = true
      · simp [tokens, hc, ih]
      · simp [tokens, hc, ih]

theorem tokens_none_cons (c : Char) (r : List Char) :
    tokens none (c :: r) =
      if isdigit c then tokens (some (digitVal c)) r
      else toLex ((tolower c).toNat, 0) :: tokens none r := by
  rw [tokens]

theorem tokens_some_cons (v : Nat) (c : Char) (r : List Char) :
    tokens (some v) (c :: r) =
      if isdigit c then tokens (some (10 * v + digitVal c)) r
      else toLex (48, v) :: toLex ((tolower c).toNat, 0) :: tokens none r := by
  rw [tokens]

theorem tokens_append_of_last (Q : List Char) :
    ∀ (P : List Char) (acc : Option Nat), (∀ c, P.getLast? = some c → isdigit c = false) →
      P ≠ [] → tokens acc (P ++ Q) = tokens acc P ++ tokens none Q := by
  intro P
  induction P with
  | nil => intro acc _ h; exact absurd rfl h
  | cons c P ih =>
    intro acc hl _
    cases P with
    | nil =>
      have hc : isdigit c = false := hl c rfl
      cases acc <;> simp [tokens, hc]
    | cons d P =>
      have hl' : ∀ x, (d :: P).getLast? = some x → isdigit x = false := by
        intro x hx
        apply hl x
        rw [List.getLast?_cons_cons]
        exact hx
      have ih' := fun acc => ih acc hl' (by simp)
      cases acc with
      | none =>
        rw [List.cons_append, tokens_none_cons c, tokens_none_cons c, ih', ih']
        split <;> rfl
      | some v =>
        rw [List.cons_append, tokens_some_cons v c, tokens_some_cons v c, ih', ih']
        split <;> rfl

/-- Tokens of a join whose seam does not cut a digit run. -/
theorem tokens_append (P Q : List Char)
    (h : (∀ c, P.getLast? = some c → isdigit c = false) ∨ (∀ c r, Q = c :: r → isdigit c = false)) :
    tokens none (P ++ Q) = tokens none P ++ tokens none Q := by
  rcases h with h | h
  · cases P with
    | nil => rfl
    | cons c P => exact tokens_append_of_last Q (c :: P) none h (by simp)
  · exact tokens_append_of_head Q h P none

theorem tokens_number (A S : List Char) (hA : A ≠ []) (hd : ∀ c ∈ A, isdigit c = true)
    (hS : ∀ c r, S = c :: r → isdigit c = false) :
    tokens none (A ++ S) = toLex (48, numVal 0 A) :: tokens none S := by
  cases A with
  | nil => exact absurd rfl hA
  | cons c A =>
    have hc : isdigit c = true := hd c (by simp)
    have e : numVal 0 (c :: A) = numVal (digitVal c) A := by
      show numVal (10 * 0 + digitVal c) _ = _
      simp
    rw [e, ← tokens_run A S (digitVal c) (fun x hx => hd x (by simp [hx])) hS]
    simp [tokens, hc]

theorem c_str_of_nulFree (s : String) (h : Char.ofNat 0 ∉ s.data) : c_str s = s.data := by
  unfold c_str
  rw [List.takeWhile_eq_self_iff]
  intro c hc
  simp only [bne_iff_ne, ne_eq]
  intro e
  exact h (e ▸ hc)

/-! ## Sorting -/

theorem insertByLess_perm (x : String) (l : List String) :
    (insertByLess x l).Perm (x :: l) := by
  induction l with
  | nil => exact List.Perm.refl _
  | cons y ys ih =>
    unfold insertByLess
    split
    · exact List.Perm.refl _
    · exact ((List.Perm.cons y ih).trans (List.Perm.swap x y ys))

theorem sortFileList_perm (l : List String) : (sortFileList l).Perm l := by
  induction l with
  | nil => exact List.Perm.refl _
  | cons x xs ih =>
    show (insertByLess x (sortFileList xs)).Perm (x :: xs)
    exact (insertByLess_perm x _).trans (List.Perm.cons x ih)

theorem insertByLess_sorted (x : String) (l : List String)
    (h : l.Pairwise (fun a b => sortKey a ≤ sortKey b)) :
    (insertByLess x l).Pairwise (fun a b => sortKey a ≤ sortKey b) := by
  induction l with
  | nil => simp [insertByLess]
  | cons y ys ih =>
    rw [List.pairwise_cons] at h
    unfold insertByLess
    split
    · rename_i hxy
      have hlt : sortKey x < sortKey y := (less_iff x y).1 hxy
      rw [List.pairwise_cons]
      refine ⟨?_, List.pairwise_cons.2 h⟩
      intro z hz
      rcases List.mem_cons.1 hz with rfl | hz
      · exact le_of_lt hlt
      · exact le_trans (le_of_lt hlt) (h.1 z hz)
    · rename_i hxy
      have hle : sortKey y ≤ sortKey x := by
        rw [← less_eq_false_iff]
        simpa using hxy
      rw [List.pairwise_cons]
      refine ⟨?_, ih h.2⟩
      intro z hz
      rcases List.mem_cons.1 ((insertByLess_perm x ys).mem_iff.1 hz) with rfl | hz
      · exact hle
      · exact h.1 z hz

/-- The output of `sortFileList` is ordered by the sort key. -/
theorem sortFileList_sorted (l : List String) :
    (sortFileList l).Pairwise (fun a b => sortKey a ≤ sortKey b) := by
  induction l with
  | nil => exact List.Pairwise.nil
  | cons x xs ih => exact insertByLess_sorted x _ ih

theorem isDirName_of_sortKey_le (x y : String) (h : sortKey x ≤ sortKey y)
    (hy : isDirName y = true) : isDirName x = true := by
  by_contra hx
  have hx' : isDirName x = false := by simpa using hx
  have : sortKey y < sortKey x := by
    unfold sortKey
    rw [hx', hy, tok_cons_lt_cons, tok_lt]
    exact Or.inl (Or.inl (by decide))
  exact absurd h (not_le.2 this)

/-! ## Lower-casing -/

theorem tolower_tolower (c : Char) : tolower (tolower c) = tolower c := by
  apply char_eq_of_toNat_eq
  rw [tolower_toNat (tolower c)]
  have h := tolower_toNat c
  split at h <;> split <;> omega

theorem tokens_map_tolower (l : List Char) :
    ∀ acc, tokens acc (l.map tolower) = tokens acc l := by
  induction l with
  | nil => intro acc; rfl
  | cons c l ih =>
    intro acc
    by_cases hc : isdigit c = true
    · cases acc with
      | none =>
        rw [List.map_cons, tolower_of_isdigit hc, tokens_none_cons, tokens_none_cons, ih, ih]
      | some v =>
        rw [List.map_cons, tolower_of_isdigit hc, tokens_some_cons, tokens_some_cons, ih, ih]
    · cases acc with
      | none =>
        rw [List.map_cons, tokens_none_cons, tokens_none_cons, isdigit_tolower, if_neg hc,
          if_neg hc, tolower_tolower, ih]
      | some v =>
        rw [List.map_cons, tokens_some_cons, tokens_some_cons, isdigit_tolower, if_neg hc,
          if_neg hc, tolower_tolower, ih]

theorem tolower_eq_slash (c : Char) : tolower c = '/' ↔ c = '/' := by
  constructor
  · intro h
    apply char_eq_of_toNat_eq
    have := congrArg Char.toNat h
    rw [tolower_toNat] at this
    have e : ('/' : Char).toNat = 47 := by decide
    rw [e] at this ⊢
    split at this <;> omega
  · rintro rfl
    decide

theorem tolower_eq_nul (c : Char) : tolower c = Char.ofNat 0 ↔ c = Char.ofNat 0 := by
  constructor
  · intro h
    apply char_eq_of_toNat_eq
    have := congrArg Char.toNat h
    rw [tolower_toNat] at this
    have e : (Char.ofNat 0).toNat = 0 := by decide
    rw [e] at this ⊢
    split at this <;> omega
  · rintro rfl
    decide

theorem isDirName_asciiLower (s : String) : isDirName (asciiLower s) = isDirName s := by
  unfold isDirName asciiLower
  rw [List.getLast?_map]
  cases s.data.getLast? with
  | none => rfl
  | some c =>
    rw [Bool.eq_iff_iff]
    simp [tolower_eq_slash]

theorem c_str_asciiLower (s : String) : c_str (asciiLower s) = (c_str s).map tolower := by
  unfold c_str asciiLower
  rw [List.takeWhile_map]
  congr 2
  funext c
  rw [Function.comp_apply, Bool.eq_iff_iff]
  simp [tolower_eq_nul]

theorem sortKey_asciiLower (s : String) : sortKey (asciiLower s) = sortKey s := by
  unfold sortKey
  rw [isDirName_asciiLower, c_str_asciiLower, tokens_map_tolower]

theorem less_congr (a b c d : String) (h1 : sortKey a = sortKey c) (h2 : sortKey b = sortKey d) :
    less a b = less c d := by
  rw [Bool.eq_iff_iff, less_iff, less_iff, h1, h2]

/-! ## Claims on the natural file sort -/

/-- C6, as stated, fails: two distinct non-empty names that differ only in the
case of a letter compare equal both ways. -/
theorem less_ties_on_case :
    "B.txt" ≠ "b.txt" ∧ "B.txt" ≠ "" ∧ "b.txt" ≠ "" ∧
      less "B.txt" "b.txt" = false ∧ less "b.txt" "B.txt" = false := by
  decide

/-- C6, amended: the comparator of `sortFileList` is a strict total order on
sort keys.  For two non-empty names at most one of `less a b` and `less b a`
holds, and exactly one holds unless the names have the same sort key, in which
case neither holds. -/
theorem less_trichotomy (a b : String) (_ha : a ≠ "") (_hb : b ≠ "") :
    (less a b = true ∧ less b a = false ∧ sortKey a ≠ sortKey b) ∨
    (less a b = false ∧ less b a = true ∧ sortKey a ≠ sortKey b) ∨
    (less a b = false ∧ less b a = false ∧ sortKey a = sortKey b) := by
  rcases lt_trichotomy (sortKey a) (sortKey b) with h | h | h
  · exact Or.inl ⟨(less_iff a b).2 h, (less_eq_false_iff b a).2 (le_of_lt h), ne_of_lt h⟩
  · exact Or.inr (Or.inr ⟨(less_eq_false_iff a b).2 (le_of_eq h.symm),
      (less_eq_false_iff b a).2 (le_of_eq h), h⟩)
  · exact Or.inr (Or.inl ⟨(less_eq_false_iff a b).2 (le_of_lt h), (less_iff b a).2 h,
      ne_of_gt h⟩)

theorem less_trichotomy_witness :
    "item2" ≠ "" ∧ "item10" ≠ "" ∧
    ((less "item2" "item10" = true ∧ less "item10" "item2" = false
        ∧ sortKey "item2" ≠ sortKey "item10") ∨
     (less "item2" "item10" = false ∧ less "item10" "item2" = true
        ∧ sortKey "item2" ≠ sortKey "item10") ∨
     (less "item2" "item10" = false ∧ less "item10" "item2" = false
        ∧ sortKey "item2" = sortKey "item10")) :=
  ⟨by decide, by decide, less_trichotomy "item2" "item10" (by decide) (by decide)⟩

/-- In any list ordered by the comparator, whatever algorithm produced it, every
directory stands before every file. -/
theorem directories_first_of_sorted (out : List String)
    (hsorted : out.Pairwise (fun a b => less b a = false)) :
    ∀ (i j : Nat) (d f : String), out[i]? = some d → out[j]? = some f →
      isDirName d = true → isDirName f = false → i < j := by
  intro i j d f hi hj hd hf
  by_contra hij
  have hji : j ≤ i := Nat.le_of_not_lt hij
  obtain ⟨hi2, hdi⟩ := List.getElem?_eq_some_iff.1 hi
  obtain ⟨hj2, hfj⟩ := List.getElem?_eq_some_iff.1 hj
  rcases Nat.eq_or_lt_of_le hji with e | hlt
  · subst e
    rw [hi] at hj
    injection hj with e
    subst e
    rw [hd] at hf
    cases hf
  · have h := List.pairwise_iff_getElem.1 hsorted j i hj2 hi2 hlt
    rw [hdi, hfj, less_eq_false_iff] at h
    have := isDirName_of_sortKey_le f d h hd
    rw [hf] at this
    cases this

theorem sortFileList_sorted_less (l : List String) :
    (sortFileList l).Pairwise (fun a b => less b a = false) :=
  (sortFileList_sorted l).imp (fun h => (less_eq_false_iff _ _).2 h)

/-- C7: for every list of non-empty names `sortFileList` returns a permutation
of the list in which every directory (a name ending in `'/'`) stands before
every file. -/
theorem sortFileList_directories_first (l : List String) (_hne : ∀ x ∈ l, x ≠ "") :
    (sortFileList l).Perm l ∧
    ∀ (i j : Nat) (d f : String), (sortFileList l)[i]? = some d → (sortFileList l)[j]? = some f →
      isDirName d = true → isDirName f = false → i < j :=
  ⟨sortFileList_perm l, directories_first_of_sorted _ (sortFileList_sorted_less l)⟩

theorem sortFileList_directories_first_witness :
    (∀ x ∈ ["b.txt", "music/", "a.txt", "Books/"], x ≠ "") ∧
    (sortFileList ["b.txt", "music/", "a.txt", "Books/"]).Perm
      ["b.txt", "music/", "a.txt", "Books/"] ∧
    ∀ (i j : Nat) (d f : String),
      (sortFileList ["b.txt", "music/", "a.txt", "Books/"])[i]? = some d →
      (sortFileList ["b.txt", "music/", "a.txt", "Books/"])[j]? = some f →
      isDirName d = true → isDirName f = false → i < j :=
  ⟨by decide, sortFileList_directories_first _ (by decide)⟩

theorem toks_lt_append (l t : List Tok) (ht : t ≠ []) : l < l ++ t := by
  cases t with
  | nil => exact absurd rfl ht
  | cons x xs =>
    have h : List.Lex (fun a b : Tok => a < b) (l ++ []) (l ++ x :: xs) :=
      List.Lex.append_left _ List.Lex.nil l
    rw [List.append_nil] at h
    exact h

theorem head_nondigit (S : List Char) (h : ∀ c, S.head? = some c → isdigit c = false) :
    ∀ c r, S = c :: r → isdigit c = false := by
  intro c r e
  subst e
  exact h c rfl

/-- C8: digit runs are ordered by their integer value.  For a common prefix `p`
that does not end in a digit, digit strings `a` and `b` with `value a < value b`
and rests `s`, `t` that do not start with a digit, the comparator puts
`p ++ a ++ s` before `p ++ b ++ t` and not the reverse (both names in one group);
and `sortFileList` maps `item2, item10, item1` to `item1, item2, item10`. -/
theorem less_numeric_runs :
    (∀ p a b s t : String,
      (∀ c, p.data.getLast? = some c → isdigit c = false) →
      a ≠ "" → b ≠ "" →
      (∀ c ∈ a.data, isdigit c = true) → (∀ c ∈ b.data, isdigit c = true) →
      numVal 0 a.data < numVal 0 b.data →
      (∀ c, s.data.head? = some c → isdigit c = false) →
      (∀ c, t.data.head? = some c → isdigit c = false) →
      Char.ofNat 0 ∉ (p ++ a ++ s).data → Char.ofNat 0 ∉ (p ++ b ++ t).data →
      isDirName (p ++ a ++ s) = isDirName (p ++ b ++ t) →
      less (p ++ a ++ s) (p ++ b ++ t) = true ∧ less (p ++ b ++ t) (p ++ a ++ s) = false) ∧
    sortFileList ["item2", "item10", "item1"] = ["item1", "item2", "item10"] := by
  refine ⟨?_, by decide⟩
  intro p a b s t hp ha hb hda hdb hval hs ht hn1 hn2 hgrp
  have hA : a.data ≠ [] := fun e => ha (String.ext e)
  have hB : b.data ≠ [] := fun e => hb (String.ext e)
  have k1 : sortKey (p ++ a ++ s) =
      toLex ((if isDirName (p ++ a ++ s) then 0 else 1), 0) ::
        (tokens none p.data ++ toLex (48, numVal 0 a.data) :: tokens none s.data) := by
    unfold sortKey
    rw [c_str_of_nulFree _ hn1, String.data_append, String.data_append, List.append_assoc,
      tokens_append _ _ (Or.inl hp), tokens_number _ _ hA hda (head_nondigit _ hs)]
  have k2 : sortKey (p ++ b ++ t) =
      toLex ((if isDirName (p ++ a ++ s) then 0 else 1), 0) ::
        (tokens none p.data ++ toLex (48, numVal 0 b.data) :: tokens none t.data) := by
    unfold sortKey
    rw [c_str_of_nulFree _ hn2, String.data_append, String.data_append, List.append_assoc,
      tokens_append _ _ (Or.inl hp), tokens_number _ _ hB hdb (head_nondigit _ ht), hgrp]
  have hlt : sortKey (p ++ a ++ s) < sortKey (p ++ b ++ t) := by
    rw [k1, k2, tok_cons_lt_cons]
    refine Or.inr ⟨rfl, ?_⟩
    exact List.Lex.append_left _ (List.Lex.rel ((tok_lt _ _ _ _).2 (Or.inr ⟨rfl, hval⟩))) _
  exact ⟨(less_iff _ _).2 hlt, (less_eq_false_iff _ _).2 (le_of_lt hlt)⟩

theorem less_numeric_runs_witness :
    less ("chapter" ++ "9" ++ ".txt") ("chapter" ++ "10" ++ ".md") = true ∧
      less ("chapter" ++ "10" ++ ".md") ("chapter" ++ "9" ++ ".txt") = false :=
  less_numeric_runs.1 "chapter" "9" "10" ".txt" ".md" (by decide) (by decide) (by decide)
    (by decide) (by decide) (by decide) (by decide) (by decide) (by decide) (by decide)
    (by decide)

/-- C9: a non-empty name `s` is ordered strictly before its proper extension
`s ++ t` when both are in one group and the seam does not cut a digit run. -/
theorem less_proper_extension (s t : String) (_hs : s ≠ "") (ht : t ≠ "")
    (hgrp : isDirName s = isDirName (s ++ t))
    (hseam : (∀ c, s.data.getLast? = some c → isdigit c = false) ∨
      (∀ c, t.data.head? = some c → isdigit c = false))
    (hnul : Char.ofNat 0 ∉ (s ++ t).data) :
    less s (s ++ t) = true ∧ less (s ++ t) s = false := by
  have hT : t.data ≠ [] := fun e => ht (String.ext e)
  have hnul1 : Char.ofNat 0 ∉ s.data := by
    intro h
    apply hnul
    rw [String.data_append]
    exact List.mem_append_left _ h
  have hseam2 : (∀ c, s.data.getLast? = some c → isdigit c = false) ∨
      (∀ c r, t.data = c :: r → isdigit c = false) :=
    hseam.imp id (head_nondigit _)
  have hlt : sortKey s < sortKey (s ++ t) := by
    unfold sortKey
    rw [c_str_of_nulFree _ hnul, c_str_of_nulFree _ hnul1, String.data_append,
      tokens_append _ _ hseam2, hgrp, tok_cons_lt_cons]
    refine Or.inr ⟨rfl, toks_lt_append _ _ ?_⟩
    intro e
    exact hT ((tokens_eq_nil_iff _).1 e)
  exact ⟨(less_iff _ _).2 hlt, (less_eq_false_iff _ _).2 (le_of_lt hlt)⟩

theorem less_proper_extension_witness :
    less "book" ("book" ++ "2.epub") = true ∧ less ("book" ++ "2.epub") "book" = false :=
  less_proper_extension "book" "2.epub" (by decide) (by decide) (by decide)
    (Or.inl (by decide)) (by decide)

/-- C10: the order ignores the case of ASCII letters.  On non-empty names the
comparator returns the same verdict on `(a, b)` as on their lower-cased forms;
and `sortFileList` maps `b.txt, A.txt` to `A.txt, b.txt`. -/
theorem less_case_insensitive :
    (∀ a b : String, a ≠ "" → b ≠ "" → less a b = less (asciiLower a) (asciiLower b)) ∧
    sortFileList ["b.txt", "A.txt"] = ["A.txt", "b.txt"] := by
  refine ⟨?_, by decide⟩
  intro a b _ _
  exact less_congr a b _ _ (sortKey_asciiLower a).symm (sortKey_asciiLower b).symm

theorem less_case_insensitive_witness :
    less "Zebra.TXT" "apple.txt" = less (asciiLower "Zebra.TXT") (asciiLower "apple.txt") :=
  less_case_insensitive.1 "Zebra.TXT" "apple.txt" (by decide) (by decide)

/-! ## Rendering the cached page -/

/-- The footer of `renderGrid` only draws: an optional page indicator, the
button hints, and the display of the buffer. -/
theorem renderGridFooter_calls (env : Env) (viewPage : Int) (s : MyLibraryActivity)
    (hipp : getItemsPerPage env ≠ 0) :
    ∃ t texts, renderGridFooter env viewPage s = some t ∧
      (∀ op ∈ texts, ∃ txt, op = DrawOp.drawText txt) ∧
      t.calls = s.calls ++ (texts ++
        [DrawOp.drawButtonHints "« Home" "Open" "Up" "Down", DrawOp.displayBuffer]) ∧
      t.frameBuffer = s.frameBuffer.map
        (fun f => f ++ (texts ++ [DrawOp.drawButtonHints "« Home" "Open" "Up" "Down"])) ∧
      t.coverBuffer = s.coverBuffer ∧ t.coverBufferStored = s.coverBufferStored ∧
      t.cachedPage = s.cachedPage ∧ t.isGridMode = s.isGridMode ∧
      t.pageCoversLoaded = s.pageCoversLoaded := by
  by_cases h : Int.tdiv (static_cast_int s.gridEntries.length + getItemsPerPage env - 1)
      (getItemsPerPage env) > 1
  · have hfoot : renderGridFooter env viewPage s = some (displayBuffer
        (draw (DrawOp.drawButtonHints "« Home" "Open" "Up" "Down")
          (draw (DrawOp.drawText (toString (viewPage + 1) ++ " / " ++ toString
            (Int.tdiv (static_cast_int s.gridEntries.length + getItemsPerPage env - 1)
              (getItemsPerPage env)))) s))) := by
      unfold renderGridFooter
      simp only [hipp, if_false, h, if_true]
    refine ⟨_, [DrawOp.drawText (toString (viewPage + 1) ++ " / " ++ toString
      (Int.tdiv (static_cast_int s.gridEntries.length + getItemsPerPage env - 1)
        (getItemsPerPage env)))], hfoot, ?_, ?_, ?_, ?_⟩
    · intro op hop
      exact ⟨_, List.mem_singleton.1 hop⟩
    · simp [displayBuffer, draw]
    · cases hfb : s.frameBuffer <;> simp [displayBuffer, draw, hfb]
    · exact ⟨rfl, rfl, rfl, rfl, rfl⟩
  · have hfoot : renderGridFooter env viewPage s = some (displayBuffer
        (draw (DrawOp.drawButtonHints "« Home" "Open" "Up" "Down") s)) := by
      unfold renderGridFooter
      simp only [hipp, if_false, h]
    refine ⟨_, [], hfoot, ?_, ?_, ?_, ?_⟩
    · intro op hop
      cases hop
    · simp [displayBuffer, draw]
    · cases hfb : s.frameBuffer <;> simp [displayBuffer, draw, hfb]
    · exact ⟨rfl, rfl, rfl, rfl, rfl⟩

/-- The middle of `renderGrid` after a successful restore: no clearing, no
header and no snapshot; the cover grid is drawn over the frame with the flag
that skips the background, then the footer. -/
theorem renderGridContent_restored (env : Env) (mallocOk : Bool)
    (viewPage pageStart pageItemCount localSelected : Int) (s : MyLibraryActivity)
    (hipp : getItemsPerPage env ≠ 0) (h0 : 0 ≤ pageStart) (hc : 0 ≤ pageItemCount)
    (hend : pageStart + pageItemCount ≤ (s.gridEntries.length : Int))
    (hfiles : s.gridEntries.length ≤ s.files.length) :
    ∃ t items texts,
      renderGridContent env mallocOk viewPage pageStart pageItemCount localSelected true s
        = some t ∧
      (∀ op ∈ texts, ∃ txt, op = DrawOp.drawText txt) ∧
      t.calls = s.calls ++ (DrawOp.drawBookCoverGrid items localSelected true :: (texts ++
        [DrawOp.drawButtonHints "« Home" "Open" "Up" "Down", DrawOp.displayBuffer])) ∧
      t.frameBuffer = s.frameBuffer.map
        (fun f => f ++ (DrawOp.drawBookCoverGrid items localSelected true ::
          (texts ++ [DrawOp.drawButtonHints "« Home" "Open" "Up" "Down"]))) ∧
      t.coverBuffer = s.coverBuffer ∧ t.coverBufferStored = s.coverBufferStored ∧
      t.cachedPage = s.cachedPage ∧ t.isGridMode = s.isGridMode ∧
      t.pageCoversLoaded = s.pageCoversLoaded := by
  obtain ⟨items, hitems⟩ := pageSlice_some s.gridEntries s.files hfiles pageItemCount.toNat
    pageStart h0 (by rw [Int.toNat_of_nonneg hc]; exact hend)
  obtain ⟨t, texts, ht, htexts, hcalls, hframe, h1, h2, h3, h4, h5⟩ :=
    renderGridFooter_calls env viewPage
      (draw (DrawOp.drawBookCoverGrid items localSelected true) s) hipp
  refine ⟨t, items, texts, ?_, htexts, ?_, ?_, h1, h2, h3, h4, h5⟩
  · unfold renderGridContent
    simp only [Bool.not_true, Bool.false_eq_true, if_false, Bool.false_and]
    rw [if_neg (by omega), hitems]
    exact ht
  · rw [hcalls]
    simp [draw]
  · rw [hframe]
    cases hfb : s.frameBuffer <;> simp [draw, hfb]

/-- A `renderGrid` on the cached, current and fully loaded page: the snapshot is
copied back and only overlays are drawn on it. -/
theorem renderGrid_restores (env : Env) (mallocOk : Bool) (s : MyLibraryActivity) (p : Int)
    (snapshot frame : Frame) (hipp : 0 < getItemsPerPage env)
    (hsel : s.selectorIndex < s.gridEntries.length)
    (hsz : s.gridEntries.length < 2147483648)
    (hfiles : s.files.length = s.gridEntries.length)
    (hstored : s.coverBufferStored = true) (hcp : s.cachedPage = p)
    (hsnap : s.coverBuffer = some snapshot) (hframe : s.frameBuffer = some frame)
    (hcur : s.currentPage = p)
    (hpage : getPageForIndex env (static_cast_int s.selectorIndex) = p) :
    ∃ t items texts, renderGrid env mallocOk s = some t ∧
      (∀ op ∈ texts, ∃ txt, op = DrawOp.drawText txt) ∧
      t.calls = s.calls ++ (DrawOp.drawBookCoverGrid items
        (static_cast_int s.selectorIndex - p * getItemsPerPage env) true :: (texts ++
        [DrawOp.drawButtonHints "« Home" "Open" "Up" "Down", DrawOp.displayBuffer])) ∧
      t.frameBuffer = some (snapshot ++ (DrawOp.drawBookCoverGrid items
        (static_cast_int s.selectorIndex - p * getItemsPerPage env) true ::
          (texts ++ [DrawOp.drawButtonHints "« Home" "Open" "Up" "Down"]))) ∧
      t.coverBuffer = some snapshot ∧ t.coverBufferStored = true ∧ t.cachedPage = p ∧
      t.isGridMode = s.isGridMode ∧ t.pageCoversLoaded = s.pageCoversLoaded := by
  have hcs : static_cast_int s.selectorIndex = (s.selectorIndex : Int) :=
    static_cast_int_of_lt _ (by omega)
  have hcl : static_cast_int s.gridEntries.length = (s.gridEntries.length : Int) :=
    static_cast_int_of_lt _ hsz
  obtain ⟨hq0, hqs⟩ := page_bounds env s.selectorIndex hipp
  rw [hcs] at hpage ⊢
  rw [hpage] at hq0 hqs
  have hipp0 : getItemsPerPage env ≠ 0 := by omega
  have hcount : 0 ≤ min (getItemsPerPage env)
      ((s.gridEntries.length : Int) - p * getItemsPerPage env) :=
    le_min (le_of_lt hipp) (by omega)
  have hend : p * getItemsPerPage env + min (getItemsPerPage env)
      ((s.gridEntries.length : Int) - p * getItemsPerPage env) ≤ (s.gridEntries.length : Int) := by
    have := min_le_right (getItemsPerPage env)
      ((s.gridEntries.length : Int) - p * getItemsPerPage env)
    omega
  have hrun : renderGrid env mallocOk s =
      renderGridContent env mallocOk p (p * getItemsPerPage env)
        (min (getItemsPerPage env) ((s.gridEntries.length : Int) - p * getItemsPerPage env))
        ((s.selectorIndex : Int) - p * getItemsPerPage env) true
        { s with frameBuffer := some snapshot } := by
    unfold renderGrid
    simp only [hcs, hpage, hcur, ne_eq, not_true_eq_false, if_false, hstored, hcp, Bool.true_and,
      hcl, beq_self_eq_true, if_true, restoreCoverBuffer, hsnap, hframe]
  obtain ⟨t, items, texts, ht, htexts, hcalls, hfb, h1, h2, h3, h4, h5⟩ :=
    renderGridContent_restored env mallocOk p (p * getItemsPerPage env)
      (min (getItemsPerPage env) ((s.gridEntries.length : Int) - p * getItemsPerPage env))
      ((s.selectorIndex : Int) - p * getItemsPerPage env)
      { s with frameBuffer := some snapshot } hipp0
      (Int.mul_nonneg hq0 (le_of_lt hipp)) hcount hend
      (by show s.gridEntries.length ≤ s.files.length; omega)
  refine ⟨t, items, texts, by rw [hrun, ht], htexts, hcalls, ?_, ?_, ?_, ?_, h4, h5⟩
  · rw [hfb]
    rfl
  · rw [h1]
    exact hsnap
  · rw [h2]
    exact hstored
  · rw [h3]
    exact hcp

/-- C11: in a grid-mode state whose frame cache is valid for page `p` (flag set,
tag `p`, snapshot and frame buffer present), with `p` the current page, marked
loaded, and the selection on page `p`: `renderGrid` copies the snapshot back and
then only draws the cover grid (with the skip-background flag), the page
indicator and the button hints on it, with no `clearScreen` and no `drawHeader`;
it takes no new snapshot and leaves `coverBufferStored` and `cachedPage` as they
were; and an iteration of `displayTaskLoop` makes no `loadNextPageCover` call. -/
theorem cached_page_is_restored_not_redrawn (env : Env) (mallocOk : Bool)
    (s : MyLibraryActivity) (p : Int) (snapshot frame : Frame)
    (hipp : 0 < getItemsPerPage env)
    (hsel : s.selectorIndex < s.gridEntries.length)
    (hsz : s.gridEntries.length < 2147483648)
    (hfiles : s.files.length = s.gridEntries.length)
    (hgrid : s.isGridMode = true)
    (hstored : s.coverBufferStored = true) (hcp : s.cachedPage = p)
    (hsnap : s.coverBuffer = some snapshot) (hframe : s.frameBuffer = some frame)
    (hcur : s.currentPage = p) (hloaded : s.pageCoversLoaded = true)
    (hpage : getPageForIndex env (static_cast_int s.selectorIndex) = p) :
    (∃ t items texts, renderGrid env mallocOk s = some t ∧
      (∀ op ∈ texts, ∃ txt, op = DrawOp.drawText txt) ∧
      t.calls = s.calls ++ (DrawOp.drawBookCoverGrid items
        (static_cast_int s.selectorIndex - p * getItemsPerPage env) true :: (texts ++
        [DrawOp.drawButtonHints "« Home" "Open" "Up" "Down", DrawOp.displayBuffer])) ∧
      t.frameBuffer = some (snapshot ++ (DrawOp.drawBookCoverGrid items
        (static_cast_int s.selectorIndex - p * getItemsPerPage env) true ::
          (texts ++ [DrawOp.drawButtonHints "« Home" "Open" "Up" "Down"]))) ∧
      t.coverBuffer = some snapshot ∧ t.coverBufferStored = true ∧ t.cachedPage = p) ∧
    ∃ t calls, displayTaskTick env mallocOk s = some (t, calls) ∧
      TaskCall.loadNextPageCover ∉ calls := by
  constructor
  · obtain ⟨t, items, texts, ht, h1, h2, h3, h4, h5, h6, _, _⟩ :=
      renderGrid_restores env mallocOk s p snapshot frame hipp hsel hsz hfiles hstored hcp hsnap
        hframe hcur hpage
    exact ⟨t, items, texts, ht, h1, h2, h3, h4, h5, h6⟩
  · by_cases hu : s.updateRequired = true
    · obtain ⟨t, items, texts, ht, _, _, _, _, _, _, hg, hl⟩ :=
        renderGrid_restores env mallocOk { s with updateRequired := false } p snapshot frame hipp
          hsel hsz hfiles hstored hcp hsnap hframe hcur hpage
      refine ⟨t, [TaskCall.render], ?_, by decide⟩
      have hg2 : t.isGridMode = true := by rw [hg]; exact hgrid
      have hl2 : t.pageCoversLoaded = true := by rw [hl]; exact hloaded
      have hr : render env mallocOk { s with updateRequired := false } = some t := by
        unfold render
        rw [if_pos (by exact hgrid)]
        exact ht
      unfold displayTaskTick
      simp only [hu, if_true, hr, Option.map_some', Option.some_bind, hg2, hl2, Bool.not_true,
        Bool.and_false, Bool.false_eq_true, if_false]
    · refine ⟨s, [], ?_, by simp⟩
      unfold displayTaskTick
      simp only [hu, if_false, Option.some_bind, hgrid, hloaded, Bool.not_true,
        Bool.and_false, Bool.false_eq_true]

theorem cached_page_is_restored_not_redrawn_witness :
    (∃ t items texts, renderGrid smallScreen true cachedFirstPageRevisited = some t ∧
      (∀ op ∈ texts, ∃ txt, op = DrawOp.drawText txt) ∧
      t.calls = cachedFirstPageRevisited.calls ++ (DrawOp.drawBookCoverGrid items
        (static_cast_int cachedFirstPageRevisited.selectorIndex - 0 * getItemsPerPage smallScreen)
        true :: (texts ++
        [DrawOp.drawButtonHints "« Home" "Open" "Up" "Down", DrawOp.displayBuffer])) ∧
      t.frameBuffer = some ([DrawOp.drawHeader "books"] ++ (DrawOp.drawBookCoverGrid items
        (static_cast_int cachedFirstPageRevisited.selectorIndex - 0 * getItemsPerPage smallScreen)
        true :: (texts ++ [DrawOp.drawButtonHints "« Home" "Open" "Up" "Down"]))) ∧
      t.coverBuffer = some [DrawOp.drawHeader "books"] ∧ t.coverBufferStored = true ∧
      t.cachedPage = 0) ∧
    ∃ t calls, displayTaskTick smallScreen true cachedFirstPageRevisited = some (t, calls) ∧
      TaskCall.loadNextPageCover ∉ calls :=
  cached_page_is_restored_not_redrawn smallScreen true cachedFirstPageRevisited 0
    [DrawOp.drawHeader "books"] [DrawOp.drawHeader "books"] (by decide) (by decide) (by decide)
    (by decide) (by decide) (by decide) (by decide) (by decide) (by decide) (by decide)
    (by decide) (by decide)

/-! ## Leaving and entering a directory -/

theorem find_last_of_none (c : Char) (l : List Char) (h : c ∉ l) : find_last_of l c = none := by
  induction l with
  | nil => rfl
  | cons x xs ih =>
    have hx : x ≠ c := fun e => h (by rw [e]; exact List.mem_cons_self _ _)
    have hxs : c ∉ xs := fun m => h (List.mem_cons_of_mem _ m)
    rw [find_last_of, ih hxs]
    simp [hx]

/-- The last `c` of a string is the one after which no `c` follows. -/
theorem find_last_of_append (c : Char) (parent seg : List Char) (h : c ∉ seg) :
    find_last_of (parent ++ c :: seg) c = some parent.length := by
  induction parent with
  | nil =>
    show find_last_of (c :: seg) c = some 0
    rw [find_last_of, find_last_of_none c seg h]
    simp
  | cons x xs ih =>
    show find_last_of (x :: (xs ++ c :: seg)) c = some (xs.length + 1)
    rw [find_last_of, ih]

/-- The loop of `findEntry` returns the index of the first entry equal to the
name, and 0 when there is none. -/
theorem findEntryFrom_eq (name : String) (fs : List String) :
    ∀ i, findEntryFrom name fs i = if name ∈ fs then i + fs.indexOf name else 0 := by
  induction fs with
  | nil => intro i; simp [findEntryFrom]
  | cons f fs ih =>
    intro i
    by_cases hf : f = name
    · rw [findEntryFrom, if_pos hf, List.indexOf_cons_eq _ hf]
      simp [hf]
    · rw [findEntryFrom, if_neg hf, ih, List.indexOf_cons_ne _ hf]
      have hmem : name ∈ f :: fs ↔ name ∈ fs := by
        rw [List.mem_cons]
        constructor
        · rintro (e | m)
          · exact absurd e.symm hf
          · exact m
        · exact Or.inr
      by_cases hm : name ∈ fs
      · rw [if_pos hm, if_pos (hmem.2 hm)]
        omega
      · rw [if_neg hm, if_neg (fun m => hm (hmem.1 m))]

/-- A short Back from the path `parent/seg`: the path becomes `parent` (the root
when `parent` is empty), the directory is reloaded and `seg/` is looked up. -/
theorem loopBack_of_path (env : Env) (held : Nat) (listing : Option (List DirChild))
    (s : MyLibraryActivity) (parent seg : List Char) (hheld : held < GO_HOME_MS)
    (hpath : s.basepath.data = parent ++ '/' :: seg) (hseg : seg ≠ []) (hslash : '/' ∉ seg) :
    loopBack env held listing s =
      some ({ loadFiles env listing
                { s with basepath := if parent = [] then "/" else String.mk parent } with
              selectorIndex :=
                findEntry (loadFiles env listing
                  { s with basepath := if parent = [] then "/" else String.mk parent })
                  (String.mk seg ++ "/")
              updateRequired := true }, []) := by
  have hroot : s.basepath ≠ "/" := by
    intro e
    have hl := congrArg List.length hpath
    rw [e] at hl
    simp at hl
    cases seg with
    | nil => exact hseg rfl
    | cons x xs => simp at hl; omega
  have hcut := find_last_of_append '/' parent seg hslash
  rw [← hpath] at hcut
  unfold loopBack
  rw [if_pos hheld, if_pos hroot]
  simp only [hcut]
  have htake : s.basepath.data.take parent.length = parent := by
    rw [hpath]; exact List.take_left _ _
  have hdrop : s.basepath.data.drop (parent.length + 1) = seg := by
    rw [hpath, List.drop_append]
    rfl
  rw [htake, hdrop]
  cases parent with
  | nil => rfl
  | cons x xs => rfl

/-- C12: a short Back release (held under 1000 ms) on a non-root path
`parent/seg` that starts with `'/'` and does not end with `'/'` (`seg` is the
last segment: not empty, without `'/'`) leaves the path `parent`, or `"/"` when
`parent` is empty, reloads that directory, and sets the selection to the index
of the first entry equal to `seg/`, or to 0 when the listing has no such
entry. -/
theorem back_short_selects_exited_directory (env : Env) (held : Nat)
    (listing : Option (List DirChild)) (s : MyLibraryActivity) (parent seg : List Char)
    (hheld : held < GO_HOME_MS) (_hstart : s.basepath.data.head? = some '/')
    (hpath : s.basepath.data = parent ++ '/' :: seg) (hseg : seg ≠ []) (hslash : '/' ∉ seg) :
    ∃ t, loopBack env held listing s = some (t, []) ∧
      t.basepath = (if parent = [] then "/" else String.mk parent) ∧
      t.files = (loadFiles env listing
        { s with basepath := if parent = [] then "/" else String.mk parent }).files ∧
      t.selectorIndex =
        (if String.mk seg ++ "/" ∈ t.files then t.files.indexOf (String.mk seg ++ "/") else 0) ∧
      t.updateRequired = true := by
  refine ⟨_, loopBack_of_path env held listing s parent seg hheld hpath hseg hslash, ?_, rfl, ?_,
    rfl⟩
  · cases listing <;> rfl
  · show findEntry _ _ = _
    unfold findEntry
    rw [findEntryFrom_eq]
    simp

theorem back_short_selects_exited_directory_witness :
    ∃ t, loopBack smallScreen 200
        (some [⟨"notes.txt", false⟩, ⟨"books", true⟩, ⟨"comics", true⟩]) twoBooks = some (t, []) ∧
      t.basepath = (if ([] : List Char) = [] then "/" else String.mk []) ∧
      t.files = (loadFiles smallScreen
        (some [⟨"notes.txt", false⟩, ⟨"books", true⟩, ⟨"comics", true⟩])
        { twoBooks with basepath := if ([] : List Char) = [] then "/" else String.mk [] }).files ∧
      t.selectorIndex =
        (if String.mk ['b', 'o', 'o', 'k', 's'] ++ "/" ∈ t.files then
          t.files.indexOf (String.mk ['b', 'o', 'o', 'k', 's'] ++ "/") else 0) ∧
      t.updateRequired = true :=
  back_short_selects_exited_directory smallScreen 200
    (some [⟨"notes.txt", false⟩, ⟨"books", true⟩, ⟨"comics", true⟩]) twoBooks []
    ['b', 'o', 'o', 'k', 's'] (by decide) (by decide) (by decide) (by decide) (by decide)

/-- C13: on a file list of non-empty names `isLeafDirectory` is true exactly when
the list is not empty and no entry ends in `'/'`; after a successful
enumeration `loadFiles` sets grid mode to that value, so a directory with a
file and no subdirectory is shown as a grid, one with a subdirectory as a list,
and an empty one as a list. -/
theorem isLeafDirectory_iff (env : Env) (children : List DirChild) (s : MyLibraryActivity)
    (_hne : ∀ f ∈ s.files, f ≠ "") :
    (isLeafDirectory s = true ↔
      s.files ≠ [] ∧ ∀ f ∈ s.files, f.data.getLast? ≠ some '/') ∧
    ((loadFiles env (some children) s).isGridMode = true ↔
      (loadFiles env (some children) s).files ≠ [] ∧
        ∀ f ∈ (loadFiles env (some children) s).files, f.data.getLast? ≠ some '/') ∧
    (s.files = [] → isLeafDirectory s = false) ∧
    ((∃ f ∈ s.files, f.data.getLast? = some '/') → isLeafDirectory s = false) := by
  have key : ∀ fs : List String, ((if fs.any isDirName then false else !fs.isEmpty) = true ↔
      fs ≠ [] ∧ ∀ f ∈ fs, f.data.getLast? ≠ some '/') := by
    intro fs
    by_cases hany : fs.any isDirName = true
    · rw [if_pos hany]
      simp only [Bool.false_eq_true, false_iff, not_and]
      intro _ hall
      obtain ⟨f, hf, hd⟩ := List.any_eq_true.1 hany
      apply hall f hf
      simpa [isDirName] using hd
    · rw [if_neg hany]
      have hall : ∀ f ∈ fs, f.data.getLast? ≠ some '/' := by
        intro f hf hd
        apply hany
        exact List.any_eq_true.2 ⟨f, hf, by simpa [isDirName] using hd⟩
      cases fs with
      | nil => simp
      | cons x xs => simp only [List.isEmpty_cons, Bool.not_false, true_iff]; exact ⟨by simp, hall⟩
  refine ⟨key s.files, key _, ?_, ?_⟩
  · intro h
    have := (key s.files).not.2 (fun hh => hh.1 h)
    simpa [isLeafDirectory] using this
  · rintro ⟨f, hf, hd⟩
    have := (key s.files).not.2 (fun hh => hh.2 f hf hd)
    simpa [isLeafDirectory] using this

theorem isLeafDirectory_iff_witness :
    (isLeafDirectory twoBooks = true ↔
      twoBooks.files ≠ [] ∧ ∀ f ∈ twoBooks.files, f.data.getLast? ≠ some '/') ∧
    ((loadFiles smallScreen (some [⟨"a.epub", false⟩, ⟨"sub", true⟩]) twoBooks).isGridMode = true ↔
      (loadFiles smallScreen (some [⟨"a.epub", false⟩, ⟨"sub", true⟩]) twoBooks).files ≠ [] ∧
        ∀ f ∈ (loadFiles smallScreen (some [⟨"a.epub", false⟩, ⟨"sub", true⟩]) twoBooks).files,
          f.data.getLast? ≠ some '/') ∧
    (twoBooks.files = [] → isLeafDirectory twoBooks = false) ∧
    ((∃ f ∈ twoBooks.files, f.data.getLast? = some '/') → isLeafDirectory twoBooks = false) :=
  isLeafDirectory_iff smallScreen [⟨"a.epub", false⟩, ⟨"sub", true⟩] twoBooks (by decide)

/-! ## What a defined call leaves behind -/

/-- A footer that returns ran on a screen with room, and changed only the frame
buffer and the call log. -/
theorem renderGridFooter_sound (env : Env) (v : Int) (u t : MyLibraryActivity)
    (h : renderGridFooter env v u = some t) :
    getItemsPerPage env ≠ 0 ∧
      t.coverBufferStored = u.coverBufferStored ∧ t.cachedPage = u.cachedPage ∧
      t.gridEntries = u.gridEntries ∧ t.files = u.files ∧
      t.currentPage = u.currentPage ∧ t.pageCoversLoaded = u.pageCoversLoaded ∧
      t.pageLoadIndex = u.pageLoadIndex := by
  by_cases h0 : getItemsPerPage env = 0
  · unfold renderGridFooter at h
    simp [h0] at h
  · obtain ⟨w, hw, h1, h2, _, h4, h5, h6, h7, h8, _⟩ := renderGridFooter_some env v u h0
    rw [hw] at h
    injection h with e
    subst e
    exact ⟨h0, h1, h2, h4, h5, h6, h7, h8⟩

theorem storeCoverBuffer_fields (mallocOk : Bool) (u : MyLibraryActivity) :
    (storeCoverBuffer mallocOk u).2.gridEntries = u.gridEntries ∧
    (storeCoverBuffer mallocOk u).2.files = u.files ∧
    (storeCoverBuffer mallocOk u).2.currentPage = u.currentPage ∧
    (storeCoverBuffer mallocOk u).2.pageCoversLoaded = u.pageCoversLoaded ∧
    (storeCoverBuffer mallocOk u).2.pageLoadIndex = u.pageLoadIndex := by
  unfold storeCoverBuffer
  cases u.frameBuffer with
  | none => exact ⟨rfl, rfl, rfl, rfl, rfl⟩
  | some fb => cases mallocOk <;> exact ⟨rfl, rfl, rfl, rfl, rfl⟩

/-- A middle part of `renderGrid` that returns had a non-negative item count and
room on the screen; it leaves the entries, the files and the pagination state
as they were, and the cache either as it was or, when the page is marked
loaded, tagged with the page shown. -/
theorem renderGridContent_sound (env : Env) (mallocOk : Bool) (v ps cnt ls : Int) (br : Bool)
    (u t : MyLibraryActivity)
    (h : renderGridContent env mallocOk v ps cnt ls br u = some t) :
    getItemsPerPage env ≠ 0 ∧ 0 ≤ cnt ∧
      t.gridEntries = u.gridEntries ∧ t.files = u.files ∧
      t.currentPage = u.currentPage ∧ t.pageCoversLoaded = u.pageCoversLoaded ∧
      t.pageLoadIndex = u.pageLoadIndex ∧
      ((t.coverBufferStored = u.coverBufferStored ∧ t.cachedPage = u.cachedPage) ∨
        (u.pageCoversLoaded = true ∧ t.cachedPage = v)) := by
  unfold renderGridContent at h
  by_cases hc : cnt < 0
  · rw [if_pos hc] at h
    cases h
  · rw [if_neg hc] at h
    split at h
    · cases h
    · rename_i items _
      obtain ⟨h0, h1, h2, h3, h4, h5, h6, h7⟩ := renderGridFooter_sound env v _ t h
      refine ⟨h0, by omega, ?_⟩
      cases br with
      | true =>
        simp only [Bool.not_true, Bool.false_and, Bool.false_eq_true, if_false] at h1 h2 h3 h4 h5 h6 h7
        exact ⟨h3, h4, h5, h6, h7, Or.inl ⟨h1, h2⟩⟩
      | false =>
        simp only [Bool.not_false, Bool.true_and, if_true] at h1 h2 h3 h4 h5 h6 h7
        have hflag : (draw (DrawOp.drawBookCoverGrid items ls false)
            (draw (DrawOp.drawHeader (folderName env u.basepath)) (clearScreen u))).pageCoversLoaded
            = u.pageCoversLoaded := rfl
        rw [hflag] at h1 h2 h3 h4 h5 h6 h7
        cases hfl : u.pageCoversLoaded with
        | false =>
          simp only [hfl, Bool.false_eq_true, if_false] at h1 h2 h3 h4 h5 h6 h7
          exact ⟨h3, h4, h5, by rw [h6]; exact hfl, h7, Or.inl ⟨h1, h2⟩⟩
        | true =>
          simp only [hfl, if_true] at h1 h2 h3 h4 h5 h6 h7
          obtain ⟨g1, g2, g3, g4, g5⟩ := storeCoverBuffer_fields mallocOk
            (draw (DrawOp.drawBookCoverGrid items ls false)
              (draw (DrawOp.drawHeader (folderName env u.basepath)) (clearScreen u)))
          refine ⟨?_, ?_, ?_, ?_, ?_, Or.inr ⟨rfl, h2⟩⟩
          · rw [h3]; exact g1
          · rw [h4]; exact g2
          · rw [h5]; exact g3
          · rw [h6]; exact g4.trans hfl
          · rw [h7]; exact g5

theorem restore_attempt_fields (c : Bool) (u : MyLibraryActivity) :
    (if c then restoreCoverBuffer u else (false, u)).2.gridEntries = u.gridEntries ∧
    (if c then restoreCoverBuffer u else (false, u)).2.files = u.files ∧
    (if c then restoreCoverBuffer u else (false, u)).2.currentPage = u.currentPage ∧
    (if c then restoreCoverBuffer u else (false, u)).2.pageCoversLoaded = u.pageCoversLoaded ∧
    (if c then restoreCoverBuffer u else (false, u)).2.pageLoadIndex = u.pageLoadIndex ∧
    (if c then restoreCoverBuffer u else (false, u)).2.coverBufferStored = u.coverBufferStored ∧
    (if c then restoreCoverBuffer u else (false, u)).2.cachedPage = u.cachedPage := by
  cases c with
  | false => exact ⟨rfl, rfl, rfl, rfl, rfl, rfl, rfl⟩
  | true =>
    simp only [if_true]
    unfold restoreCoverBuffer
    cases u.coverBuffer with
    | none => exact ⟨rfl, rfl, rfl, rfl, rfl, rfl, rfl⟩
    | some snap =>
      cases u.frameBuffer with
      | none => exact ⟨rfl, rfl, rfl, rfl, rfl, rfl, rfl⟩
      | some fb => exact ⟨rfl, rfl, rfl, rfl, rfl, rfl, rfl⟩

/-- A `renderGrid` that returns ran on a screen with room for a row.  It leaves
the entries and the files; the current page is the page of the selection, with
the pagination state kept when that page was current already and restarted
otherwise; the cache is as it was or, when the page was current and marked
loaded, tagged with that page. -/
theorem renderGrid_sound (env : Env) (mallocOk : Bool) (s t : MyLibraryActivity)
    (h : renderGrid env mallocOk s = some t) :
    0 < getItemsPerPage env ∧ t.gridEntries = s.gridEntries ∧ t.files = s.files ∧
      t.currentPage = getPageForIndex env (static_cast_int s.selectorIndex) ∧
      ((getPageForIndex env (static_cast_int s.selectorIndex) = s.currentPage ∧
          t.pageCoversLoaded = s.pageCoversLoaded ∧ t.pageLoadIndex = s.pageLoadIndex) ∨
        (t.pageCoversLoaded = false ∧
          t.pageLoadIndex = toSizeT (getPageForIndex env (static_cast_int s.selectorIndex)
            * getItemsPerPage env))) ∧
      ((t.coverBufferStored = s.coverBufferStored ∧ t.cachedPage = s.cachedPage) ∨
        (s.pageCoversLoaded = true ∧
          getPageForIndex env (static_cast_int s.selectorIndex) = s.currentPage ∧
          t.cachedPage = s.currentPage)) := by
  unfold renderGrid at h
  generalize hq : getPageForIndex env (static_cast_int s.selectorIndex) = q at h ⊢
  obtain ⟨h0, hcnt, h1, h2, h3, h4, h5, h6⟩ := renderGridContent_sound env mallocOk _ _ _ _ _ _ t h
  obtain ⟨r1, r2, r3, r4, r5, r6, r7⟩ := restore_attempt_fields
    ((if q ≠ s.currentPage then startPageLoad env q s else s).coverBufferStored &&
      (if q ≠ s.currentPage then startPageLoad env q s else s).cachedPage == q)
    (if q ≠ s.currentPage then startPageLoad env q s else s)
  simp only [Bool.and_eq_true, beq_iff_eq] at r1 r2 r3 r4 r5 r6 r7
  simp only [Bool.and_eq_true, beq_iff_eq] at h1 h2 h3 h4 h5 h6
  rw [r1] at h1
  rw [r2] at h2
  rw [r3] at h3
  rw [r4] at h4 h6
  rw [r5] at h5
  rw [r6, r7] at h6
  have hpos : 0 < getItemsPerPage env := by
    have := min_le_left (getItemsPerPage env)
      (static_cast_int (if q ≠ s.currentPage then startPageLoad env q s else s).gridEntries.length
        - q * getItemsPerPage env)
    omega
  by_cases hcur : q = s.currentPage
  · simp only [hcur, ne_eq, not_true_eq_false, if_false] at h1 h2 h3 h4 h5 h6
    refine ⟨hpos, h1, h2, by rw [h3, hcur], Or.inl ⟨hcur, h4, h5⟩, ?_⟩
    rcases h6 with h6 | ⟨h6, h7⟩
    · exact Or.inl h6
    · exact Or.inr ⟨h6, hcur, h7⟩
  · simp only [ne_eq, hcur, not_false_eq_true, if_true] at h1 h2 h3 h4 h5 h6
    refine ⟨hpos, h1, h2, h3, Or.inr ⟨h4, h5⟩, ?_⟩
    rcases h6 with h6 | ⟨h6, _⟩
    · exact Or.inl h6
    · cases h6

/-- Where the skipping loop stops, when it stops: every entry it passed is
loaded, and it stands at the page end or at an unloaded entry. -/
theorem skipLoaded_sound (entries : List BookGridEntry) (pageEnd : Int)
    (hlen : entries.length < 2147483648) :
    ∀ (fuel idx k : Nat), idx < 2147483648 → skipLoaded entries pageEnd fuel idx = some k →
      idx ≤ k ∧ k < 2147483648 ∧
      (∀ j, idx ≤ j → j < k → ∃ e, entries[j]? = some e ∧ e.loaded = true) ∧
      (pageEnd ≤ (k : Int) ∨ ∃ e, entries[k]? = some e ∧ e.loaded = false) := by
  intro fuel
  induction fuel with
  | zero => intro idx k _ h; cases h
  | succ fuel ih =>
    intro idx k hidx h
    have hc : static_cast_int idx = (idx : Int) := static_cast_int_of_lt idx hidx
    rw [skipLoaded, hc] at h
    by_cases hlt : (idx : Int) < pageEnd
    · rw [if_pos hlt] at h
      cases he : entries[idx]? with
      | none => rw [he] at h; cases h
      | some e =>
        rw [he] at h
        have hin : idx < entries.length := by
          by_contra hge
          rw [List.getElem?_eq_none (by omega)] at he
          cases he
        cases hl : e.loaded with
        | true =>
          simp only [hl, if_true] at h
          rw [succ_mod_size idx hidx] at h
          obtain ⟨h1, h2, h3, h4⟩ := ih (idx + 1) k (by omega) h
          refine ⟨by omega, h2, ?_, h4⟩
          intro j hj1 hj2
          rcases Nat.eq_or_lt_of_le hj1 with e1 | hgt
          · subst e1
            exact ⟨e, he, hl⟩
          · exact h3 j (by omega) hj2
        | false =>
          simp only [hl, Bool.false_eq_true, if_false, Option.some.injEq] at h
          subst h
          exact ⟨le_refl _, hidx, fun j h1 h2 => by omega, Or.inr ⟨e, he, hl⟩⟩
    · rw [if_neg hlt] at h
      injection h with h
      subst h
      exact ⟨le_refl _, hidx, fun j h1 h2 => by omega, Or.inl (by omega)⟩

/-- What a `loadNextPageCover` that returns did: it passed loaded entries only,
and then either marked the page loaded at its end, or loaded the entry under
the cursor and moved on by one. -/
theorem loadNextPageCover_sound (env : Env) (s t : MyLibraryActivity)
    (hlen : s.gridEntries.length < 2147483648) (hcur : s.pageLoadIndex < 2147483648)
    (h : loadNextPageCover env s = some t) :
    ∃ k, s.pageLoadIndex ≤ k ∧ k < 2147483648 ∧
      (∀ j, s.pageLoadIndex ≤ j → j < k → ∃ e, s.gridEntries[j]? = some e ∧ e.loaded = true) ∧
      t.files = s.files ∧ t.currentPage = s.currentPage ∧
      t.coverBufferStored = s.coverBufferStored ∧ t.cachedPage = s.cachedPage ∧
      ((min ((s.currentPage + 1) * getItemsPerPage env) (s.gridEntries.length : Int) ≤ (k : Int) ∧
          t.gridEntries = s.gridEntries ∧ t.pageLoadIndex = k) ∨
        (∃ e, e.loaded = true ∧ t.gridEntries = s.gridEntries.set k e ∧
          t.pageLoadIndex = k + 1 ∧ k + 1 < 2147483648 ∧
          t.pageCoversLoaded = s.pageCoversLoaded)) := by
  have hcl : static_cast_int s.gridEntries.length = (s.gridEntries.length : Int) :=
    static_cast_int_of_lt _ hlen
  cases hk : skipLoaded s.gridEntries
      (min ((s.currentPage + 1) * getItemsPerPage env) (static_cast_int s.gridEntries.length))
      (s.gridEntries.length + 1) s.pageLoadIndex with
  | none =>
    unfold loadNextPageCover at h
    simp only [hk] at h
    cases h
  | some k =>
    rw [loadNextPageCover_of_skip env s k hk] at h
    obtain ⟨h1, h2, h3, h4⟩ := skipLoaded_sound s.gridEntries _ hlen _ _ k hcur hk
    have hck : static_cast_int k = (k : Int) := static_cast_int_of_lt k h2
    rw [hck, hcl] at h
    refine ⟨k, h1, h2, h3, ?_⟩
    by_cases hend : (k : Int) ≥
        min ((s.currentPage + 1) * getItemsPerPage env) (s.gridEntries.length : Int)
    · rw [if_pos hend] at h
      injection h with h
      subst h
      exact ⟨rfl, rfl, rfl, rfl, Or.inl ⟨hend, rfl, rfl⟩⟩
    · rw [if_neg hend] at h
      have hklt : k < s.gridEntries.length := by
        have := min_le_right ((s.currentPage + 1) * getItemsPerPage env)
          (s.gridEntries.length : Int)
        omega
      split at h
      · injection h with h
        subst h
        refine ⟨rfl, rfl, rfl, rfl, Or.inr ⟨_, rfl, rfl, ?_, by omega, rfl⟩⟩
        exact succ_mod_size k h2
      · cases h

/-! ## The invariant behind the frame cache -/

theorem pageLoaded_set (env : Env) (entries : List BookGridEntry) (p : Int) (k : Nat)
    (e : BookGridEntry) (he : e.loaded = true) (h : PageLoaded env entries p) :
    PageLoaded env (entries.set k e) p := by
  intro i x h1 h2 h3
  rw [List.length_set] at h2
  by_cases hik : k = i
  · subst hik
    rw [List.getElem?_set] at h3
    simp only [if_true] at h3
    split at h3
    · injection h3 with h3
      rw [← h3]
      exact he
    · cases h3
  · rw [List.getElem?_set_ne hik] at h3
    exact h i x h1 h2 h3

theorem gridInvariant_loadFiles (env : Env) (listing : Option (List DirChild))
    (s : MyLibraryActivity) (hinv : GridInvariant env s)
    (hfit : ∀ children, listing = some children →
      (children.filterMap (keepChild env)).length < 2147483648) :
    GridInvariant env (loadFiles env listing s) := by
  cases listing with
  | none =>
    obtain ⟨h1, _, h3, h4, h5, h6⟩ := hinv
    exact ⟨h1, by show ([] : List String).length < _; simp, h3, h4, h5, h6⟩
  | some children =>
    have hperm := (sortFileList_perm (children.filterMap (keepChild env))).length_eq
    have hfl : (loadFiles env (some children) s).files.length < 2147483648 := by
      show (sortFileList (children.filterMap (keepChild env))).length < _
      rw [hperm]
      exact hfit children rfl
    have hgl : (loadFiles env (some children) s).gridEntries.length < 2147483648 := by
      simp only [loadFiles]
      split
      · rw [List.length_replicate]
        show (sortFileList (children.filterMap (keepChild env))).length < _
        rw [hperm]
        exact hfit children rfl
      · simp
    refine ⟨hgl, hfl, by show (0 : Nat) < _; omega, ?_, ?_, ?_⟩
    · intro h
      cases h
    · intro h
      cases h
    · intro i e _ h2
      have h3 : i < 0 := h2
      omega

theorem gridInvariant_loadNextPageCover (env : Env) (s t : MyLibraryActivity)
    (hinv : GridInvariant env s) (h : loadNextPageCover env s = some t) :
    GridInvariant env t := by
  obtain ⟨i1, i2, i3, i4, i5, i6⟩ := hinv
  obtain ⟨k, k1, k2, k3, f1, f2, f3, f4, hcase⟩ := loadNextPageCover_sound env s t i1 i3 h
  have hfront : ∀ (i : Nat) (e : BookGridEntry), s.currentPage * getItemsPerPage env ≤ (i : Int) →
      i < k → s.gridEntries[i]? = some e → e.loaded = true := by
    intro i e h1 h2 h3
    by_cases hi : i < s.pageLoadIndex
    · exact i6 i e h1 hi h3
    · obtain ⟨x, hx, hl⟩ := k3 i (by omega) h2
      rw [hx] at h3
      injection h3 with h3
      rw [← h3]
      exact hl
  rcases hcase with ⟨hend, g1, g2⟩ | ⟨e, he, g1, g2, g3, g4⟩
  · refine ⟨by rw [g1]; exact i1, by rw [f1]; exact i2, by rw [g2]; exact k2, ?_, ?_, ?_⟩
    · intro hs
      rw [g1, f4]
      exact i4 (by rw [← f3]; exact hs)
    · intro _
      rw [g1, f2]
      intro i x h1 h2 h3
      exact hfront i x h1 (by omega) h3
    · intro i x h1 h2 h3
      rw [g1] at h3
      rw [f2] at h1
      rw [g2] at h2
      exact hfront i x h1 h2 h3
  · refine ⟨by rw [g1, List.length_set]; exact i1, by rw [f1]; exact i2, by rw [g2]; exact g3,
      ?_, ?_, ?_⟩
    · intro hs
      rw [g1, f4]
      exact pageLoaded_set env _ _ k e he (i4 (by rw [← f3]; exact hs))
    · intro hs
      rw [g1, f2]
      exact pageLoaded_set env _ _ k e he (i5 (by rw [← g4]; exact hs))
    · intro i x h1 h2 h3
      rw [f2] at h1
      rw [g2] at h2
      rw [g1] at h3
      by_cases hik : k = i
      · subst hik
        rw [List.getElem?_set] at h3
        simp only [if_true] at h3
        split at h3
        · injection h3 with h3
          rw [← h3]
          exact he
        · cases h3
      · rw [List.getElem?_set_ne hik] at h3
        exact hfront i x h1 (by omega) h3

theorem gridInvariant_renderGrid (env : Env) (mallocOk : Bool) (s t : MyLibraryActivity)
    (i : Nat) (hinv : GridInvariant env s) (hi : i < s.files.length)
    (h : renderGrid env mallocOk { s with selectorIndex := i } = some t) :
    GridInvariant env t := by
  obtain ⟨i1, i2, i3, i4, i5, i6⟩ := hinv
  obtain ⟨hipp, g1, g2, g3, hpag, hcache⟩ := renderGrid_sound env mallocOk _ t h
  have hci : static_cast_int i = (i : Int) := static_cast_int_of_lt i (by omega)
  have e1 : ({ s with selectorIndex := i } : MyLibraryActivity).selectorIndex = i := rfl
  have e2 : ({ s with selectorIndex := i } : MyLibraryActivity).gridEntries = s.gridEntries := rfl
  have e3 : ({ s with selectorIndex := i } : MyLibraryActivity).files = s.files := rfl
  have e4 : ({ s with selectorIndex := i } : MyLibraryActivity).currentPage = s.currentPage := rfl
  have e5 : ({ s with selectorIndex := i } : MyLibraryActivity).pageCoversLoaded
      = s.pageCoversLoaded := rfl
  have e6 : ({ s with selectorIndex := i } : MyLibraryActivity).pageLoadIndex
      = s.pageLoadIndex := rfl
  have e7 : ({ s with selectorIndex := i } : MyLibraryActivity).coverBufferStored
      = s.coverBufferStored := rfl
  have e8 : ({ s with selectorIndex := i } : MyLibraryActivity).cachedPage = s.cachedPage := rfl
  rw [e1, hci] at g3 hpag hcache
  rw [e2] at g1
  rw [e3] at g2
  rw [e4, e5, e6] at hpag
  rw [e4, e5, e7, e8] at hcache
  obtain ⟨hq0, hqs⟩ := page_bounds env i hipp
  generalize getPageForIndex env (i : Int) = q at g3 hpag hcache hq0 hqs
  have hstart : (toSizeT (q * getItemsPerPage env) : Int) = q * getItemsPerPage env := by
    have hnn : 0 ≤ q * getItemsPerPage env := Int.mul_nonneg hq0 (le_of_lt hipp)
    obtain ⟨n, hn⟩ := Int.eq_ofNat_of_zero_le hnn
    rw [hn, toSizeT_of_nat n (by omega)]
  refine ⟨by rw [g1]; exact i1, by rw [g2]; exact i2, ?_, ?_, ?_, ?_⟩
  · rcases hpag with ⟨_, _, hp⟩ | ⟨_, hp⟩
    · rw [hp]; exact i3
    · have : ((t.pageLoadIndex : Nat) : Int) = q * getItemsPerPage env := by rw [hp]; exact hstart
      omega
  · intro hs
    rw [g1]
    rcases hcache with ⟨c1, c2⟩ | ⟨c1, _, c3⟩
    · rw [c2]
      exact i4 (by rw [← c1]; exact hs)
    · rw [c3]
      exact i5 c1
  · intro hs
    rw [g1, g3]
    rcases hpag with ⟨p1, p2, _⟩ | ⟨p2, _⟩
    · rw [p1]
      exact i5 (by rw [← p2]; exact hs)
    · rw [p2] at hs
      cases hs
  · intro j x h1 h2 h3
    rw [g1] at h3
    rw [g3] at h1
    rcases hpag with ⟨p1, _, p3⟩ | ⟨_, p3⟩
    · rw [p1] at h1
      rw [p3] at h2
      exact i6 j x h1 h2 h3
    · have : ((t.pageLoadIndex : Nat) : Int) = q * getItemsPerPage env := by rw [p3]; exact hstart
      omega

/-- Every reachable state satisfies the invariant. -/
theorem gridInvariant_of_reachable (env : Env) (s : MyLibraryActivity) (h : Reachable env s) :
    GridInvariant env s := by
  induction h with
  | start s children hfit _ =>
    have hperm := (sortFileList_perm (children.filterMap (keepChild env))).length_eq
    have hfl : (loadFiles env (some children) s).files.length < 2147483648 := by
      show (sortFileList (children.filterMap (keepChild env))).length < _
      rw [hperm]
      exact hfit
    have hgl : (loadFiles env (some children) s).gridEntries.length < 2147483648 := by
      simp only [loadFiles]
      split
      · rw [List.length_replicate]
        show (sortFileList (children.filterMap (keepChild env))).length < _
        rw [hperm]
        exact hfit
      · simp
    refine ⟨hgl, hfl, by show (0 : Nat) < _; omega, ?_, ?_, ?_⟩
    · intro h
      cases h
    · intro h
      cases h
    · intro i e _ h2
      have h3 : i < 0 := h2
      omega
  | step s t _ hstep ih =>
    cases hstep
    case render i mallocOk hi hr => exact gridInvariant_renderGrid env mallocOk s t i ih hi hr
    case load hl => exact gridInvariant_loadNextPageCover env s t ih hl
    case reload path listing hfit =>
      refine gridInvariant_loadFiles env listing _ ?_ hfit
      exact ih

theorem eq_some_getD (o : Option MyLibraryActivity) (d : MyLibraryActivity)
    (h : o.isSome = true) : o = some (o.getD d) := by
  cases o with
  | none => cases h
  | some x => rfl

/-- The five states of the walk through a one-book grid are reachable. -/
theorem oneBookCached_reachable : Reachable smallScreen oneBookCached := by
  have r0 : Reachable smallScreen oneBookOpened :=
    Reachable.start freshActivity [{ name := "a.epub", isDirectory := false }] (by decide)
      (by decide)
  have r1 : Reachable smallScreen oneBookRendered :=
    Reachable.step _ _ r0 (GridStep.render _ _ 0 true (by decide)
      (eq_some_getD _ _ (by decide)))
  have r2 : Reachable smallScreen oneBookLoaded :=
    Reachable.step _ _ r1 (GridStep.load _ _ (eq_some_getD _ _ (by decide)))
  have r3 : Reachable smallScreen oneBookMarked :=
    Reachable.step _ _ r2 (GridStep.load _ _ (eq_some_getD _ _ (by decide)))
  exact Reachable.step _ _ r3 (GridStep.render _ _ 0 true (by decide)
    (eq_some_getD _ _ (by decide)))

/-- C14: in every state reachable from a successful `loadFiles` that chose grid
mode, by `renderGrid` steps (selection on any index of the file list, any
outcome of the snapshot allocation), `loadNextPageCover` steps and `loadFiles`
steps: if the cached frame is valid, tagged with page `p`, then every grid entry
whose index lies in page `p` is loaded. -/
theorem cached_page_is_loaded (env : Env) (s : MyLibraryActivity) (h : Reachable env s)
    (p : Int) (hstored : s.coverBufferStored = true) (hp : s.cachedPage = p) :
    ∀ (i : Nat) (e : BookGridEntry), p * getItemsPerPage env ≤ (i : Int) →
      (i : Int) < min ((p + 1) * getItemsPerPage env) (s.gridEntries.length : Int) →
      s.gridEntries[i]? = some e → e.loaded = true := by
  obtain ⟨_, _, _, hcache, _, _⟩ := gridInvariant_of_reachable env s h
  rw [← hp]
  exact hcache hstored

theorem cached_page_is_loaded_witness :
    Reachable smallScreen oneBookCached ∧ oneBookCached.coverBufferStored = true ∧
    oneBookCached.cachedPage = 0 ∧ oneBookCached.gridEntries.length = 1 ∧
    ∀ (i : Nat) (e : BookGridEntry), 0 * getItemsPerPage smallScreen ≤ (i : Int) →
      (i : Int) < min ((0 + 1) * getItemsPerPage smallScreen)
        (oneBookCached.gridEntries.length : Int) →
      oneBookCached.gridEntries[i]? = some e → e.loaded = true :=
  ⟨oneBookCached_reachable, by decide, by decide, by decide,
    cached_page_is_loaded smallScreen oneBookCached oneBookCached_reachable 0 (by decide)
      (by decide)⟩

/-! ## The degenerate screen -/

/-- On a screen with no room for a row `getPageForIndex` maps every index to
page 0. -/
theorem getPageForIndex_of_no_room (env : Env) (h : getItemsPerPage env = 0) (index : Int) :
    getPageForIndex env index = 0 := by
  unfold getPageForIndex
  simp [h]

/-- On a screen with no room for a row no call of `renderGrid` is defined: the
page count divides by zero, if nothing failed before. -/
theorem renderGrid_of_no_room (env : Env) (mallocOk : Bool) (s : MyLibraryActivity)
    (h : getItemsPerPage env = 0) : renderGrid env mallocOk s = none := by
  have hfoot : ∀ (v : Int) (u : MyLibraryActivity), renderGridFooter env v u = none := by
    intro v u
    unfold renderGridFooter
    simp [h]
  have hcontent : ∀ (v ps cnt ls : Int) (br : Bool) (u : MyLibraryActivity),
      renderGridContent env mallocOk v ps cnt ls br u = none := by
    intro v ps cnt ls br u
    unfold renderGridContent
    simp only [hfoot]
    by_cases hc : cnt < 0
    · rw [if_pos hc]
    · rw [if_neg hc]
      split <;> rfl
  unfold renderGrid
  exact hcontent _ _ _ _ _ _

/-- C15 (code defect): on a screen where `getItemsPerPage` is 0, with a grid of
two files, `getPageForIndex` returns 0, the page slice of `renderGrid` is empty
and in range, and the page count `(2 + 0 - 1) / 0` divides by zero: the footer,
and with it `renderGrid`, is undefined. -/
theorem renderGrid_divides_by_zero :
    getItemsPerPage tinyScreen = 0 ∧ twoBooks.isGridMode = true ∧ twoBooks.files.length = 2 ∧
    getPageForIndex tinyScreen (static_cast_int twoBooks.selectorIndex) = 0 ∧
    min (getItemsPerPage tinyScreen) (static_cast_int twoBooks.gridEntries.length - 0) = 0 ∧
    pageSlice twoBooks.gridEntries twoBooks.files 0 0 = some [] ∧
    (renderGridFooter tinyScreen 0 twoBooks).isNone = true ∧
    (renderGrid tinyScreen true twoBooks).isNone = true ∧
    (renderGrid tinyScreen false twoBooks).isNone = true := by
  decide

/-! ## The comparator as an order -/

/-- C16: on non-empty names the comparator of `sortFileList` is a strict weak
ordering: `less a a` is false, `less` is transitive, and being incomparable
(neither `less a b` nor `less b a`) is transitive. -/
theorem less_strict_weak_order (a b c : String) (_ha : a ≠ "") (_hb : b ≠ "") (_hc : c ≠ "") :
    less a a = false ∧
    (less a b = true → less b c = true → less a c = true) ∧
    (less a b = false → less b a = false → less b c = false → less c b = false →
      less a c = false ∧ less c a = false) := by
  refine ⟨?_, ?_, ?_⟩
  · rw [less_eq_false_iff]
  · intro h1 h2
    rw [less_iff] at h1 h2 ⊢
    exact lt_trans h1 h2
  · intro h1 h2 h3 h4
    rw [less_eq_false_iff] at h1 h2 h3 h4 ⊢
    rw [less_eq_false_iff]
    have e1 : sortKey a = sortKey b := le_antisymm h2 h1
    have e2 : sortKey b = sortKey c := le_antisymm h4 h3
    rw [e1, e2]
    exact ⟨le_refl _, le_refl _⟩

theorem less_strict_weak_order_witness :
    less "a1.txt" "a1.txt" = false ∧
    (less "a1.txt" "A01.txt" = true → less "A01.txt" "a001.TXT" = true →
      less "a1.txt" "a001.TXT" = true) ∧
    (less "a1.txt" "A01.txt" = false → less "A01.txt" "a1.txt" = false →
      less "A01.txt" "a001.TXT" = false → less "a001.TXT" "A01.txt" = false →
      less "a1.txt" "a001.TXT" = false ∧ less "a001.TXT" "a1.txt" = false) :=
  less_strict_weak_order "a1.txt" "A01.txt" "a001.TXT" (by decide) (by decide) (by decide)

/-! ## Round trip through a directory -/

theorem loadFiles_basepath (env : Env) (listing : Option (List DirChild)) (s : MyLibraryActivity) :
    (loadFiles env listing s).basepath = s.basepath := by
  cases listing <;> rfl

/-- Confirm on the directory entry `d/` from the path `p`: the path becomes `p`
joined with `d` by one `'/'`, the directory is loaded and the selection reset. -/
theorem loopConfirm_of_directory (env : Env) (listing : Option (List DirChild))
    (s : MyLibraryActivity) (d : List Char) (last : Char)
    (hlast : s.basepath.data.getLast? = some last)
    (hentry : s.files[s.selectorIndex]? = some (String.mk d ++ "/")) :
    loopConfirm env listing s =
      some ({ loadFiles env listing
                { s with basepath :=
                    (if last ≠ '/' then s.basepath ++ "/" else s.basepath) ++ String.mk d } with
              selectorIndex := 0, updateRequired := true }, []) := by
  have hne : s.files.isEmpty = false := by
    cases hf : s.files with
    | nil => rw [hf] at hentry; simp at hentry
    | cons x xs => rfl
  have hdata : (String.mk d ++ "/").data = d ++ ['/'] := by
    rw [String.data_append]
  have hl : (String.mk d ++ "/").data.getLast? = some '/' := by
    rw [hdata, List.getLast?_concat]
  have htake : (String.mk d ++ "/").data.take ((String.mk d ++ "/").length - 1) = d := by
    have hlen : (String.mk d ++ "/").length = d.length + 1 := by
      show (String.mk d ++ "/").data.length = _
      rw [hdata]
      simp
    rw [hlen, hdata, Nat.add_sub_cancel, List.take_left]
  unfold loopConfirm
  rw [hne]
  simp only [Bool.false_eq_true, if_false, hlast]
  by_cases hs : last = '/'
  · subst hs
    simp only [ne_eq, not_true_eq_false, if_false, hentry, hl, if_true, htake]
  · have hf2 : ({ s with basepath := s.basepath ++ "/" } : MyLibraryActivity).files = s.files := rfl
    have hs2 : ({ s with basepath := s.basepath ++ "/" } : MyLibraryActivity).selectorIndex
        = s.selectorIndex := rfl
    simp only [ne_eq, hs, not_false_eq_true, if_true, hf2, hs2, hentry, hl, htake]

/-- C17: entering a directory and leaving it is a round trip on the path.  From
a path `p` that is `"/"` or starts with `'/'` and does not end with `'/'`,
Confirm on the entry `d/` (`d` not empty, without `'/'`) sets the path to `p`
joined with `d` by exactly one `'/'`; a following short Back sets the path
back to `p` and sets the selection by looking up the name `d/`. -/
theorem confirm_then_back_round_trip (env : Env) (held : Nat)
    (entered left : Option (List DirChild)) (s : MyLibraryActivity) (p : String)
    (d : List Char) (hheld : held < GO_HOME_MS)
    (hp : p = "/" ∨ (p.data.head? = some '/' ∧ p.data.getLast? ≠ some '/'))
    (hd : d ≠ []) (hslash : '/' ∉ d) (hbase : s.basepath = p)
    (hentry : s.files[s.selectorIndex]? = some (String.mk d ++ "/")) :
    ∃ t1, loopConfirm env entered s = some (t1, []) ∧
      t1.basepath = (if p = "/" then "/" ++ String.mk d else p ++ "/" ++ String.mk d) ∧
      ∃ t2, loopBack env held left t1 = some (t2, []) ∧
        t2.basepath = p ∧ t2.selectorIndex = findEntry t2 (String.mk d ++ "/") := by
  subst hbase
  rcases hp with hroot | ⟨hhead, hnl⟩
  · have hlast : s.basepath.data.getLast? = some '/' := by rw [hroot]; rfl
    refine ⟨_, loopConfirm_of_directory env entered s d '/' hlast hentry, ?_, ?_⟩
    · show (loadFiles env entered _).basepath = _
      rw [loadFiles_basepath, if_pos hroot]
      simp [hroot]
    · have hpath : ({ loadFiles env entered
          { s with basepath :=
              (if '/' ≠ '/' then s.basepath ++ "/" else s.basepath) ++ String.mk d } with
          selectorIndex := 0, updateRequired := true } : MyLibraryActivity).basepath.data
          = [] ++ '/' :: d := by
        show (loadFiles env entered _).basepath.data = _
        rw [loadFiles_basepath]
        simp [hroot]
      refine ⟨_, loopBack_of_path env held left _ [] d hheld hpath hd hslash, ?_, rfl⟩
      show (loadFiles env left _).basepath = _
      rw [loadFiles_basepath]
      simp [hroot]
  · obtain ⟨last, hlast⟩ : ∃ c, s.basepath.data.getLast? = some c := by
      cases hl : s.basepath.data.getLast? with
      | none =>
        rw [List.getLast?_eq_none_iff.1 hl] at hhead
        cases hhead
      | some c => exact ⟨c, rfl⟩
    have hls : last ≠ '/' := by
      rintro rfl
      exact hnl hlast
    have hnr : s.basepath ≠ "/" := by
      intro e
      rw [e] at hnl
      exact hnl rfl
    have hne : s.basepath.data ≠ [] := by
      intro e
      rw [e] at hhead
      cases hhead
    refine ⟨_, loopConfirm_of_directory env entered s d last hlast hentry, ?_, ?_⟩
    · show (loadFiles env entered _).basepath = _
      rw [loadFiles_basepath, if_neg hnr]
      simp [hls]
    · have hpath : ({ loadFiles env entered
          { s with basepath :=
              (if last ≠ '/' then s.basepath ++ "/" else s.basepath) ++ String.mk d } with
          selectorIndex := 0, updateRequired := true } : MyLibraryActivity).basepath.data
          = s.basepath.data ++ '/' :: d := by
        show (loadFiles env entered _).basepath.data = _
        rw [loadFiles_basepath]
        simp [hls]
      refine ⟨_, loopBack_of_path env held left _ s.basepath.data d hheld hpath hd hslash, ?_, rfl⟩
      show (loadFiles env left _).basepath = _
      rw [loadFiles_basepath]
      simp [hne]

theorem confirm_then_back_round_trip_witness :
    ∃ t1, loopConfirm smallScreen none
        { twoBooks with files := ["comics/", "a.epub"], isGridMode := false } = some (t1, []) ∧
      t1.basepath = (if "/books" = "/" then "/" ++ String.mk ['c', 'o', 'm', 'i', 'c', 's']
        else "/books" ++ "/" ++ String.mk ['c', 'o', 'm', 'i', 'c', 's']) ∧
      ∃ t2, loopBack smallScreen 10 none t1 = some (t2, []) ∧
        t2.basepath = "/books" ∧
        t2.selectorIndex = findEntry t2 (String.mk ['c', 'o', 'm', 'i', 'c', 's'] ++ "/") :=
  confirm_then_back_round_trip smallScreen 10 none none
    { twoBooks with files := ["comics/", "a.epub"], isGridMode := false } "/books"
    ['c', 'o', 'm', 'i', 'c', 's'] (by decide) (by decide) (by decide) (by decide) (by decide)
    (by decide)

end MyLibrary
